import Mathlib

/-!
Verification development for the `ai_agent` ERPNext agent core:
the deterministic router (`router.py`), the planner/executor
(`agent.py`) and the resilient completion client (`llm_client.py`).

Python dictionaries, lists, strings, numbers, booleans and `None` are
embedded as a single `Json` value type (the code manipulates plans and
step payloads as untyped JSON-like dicts).  Stateful or effectful
boundaries (the completion backend, the tool registry, the RAG
answerer) are passed in as explicit oracle functions, and every
externally visible invocation is recorded in a trace.  Python runtime
errors (TypeError/AttributeError/KeyError raised by the embedded code
itself) are modelled with `Except Unit`.
-/

namespace AIAgent

/-- Embedded Python/JSON values: `None`, booleans, numbers, strings,
lists and dicts (association lists in insertion order, unique keys). -/
inductive Json where
  | null : Json
  | bool (b : Bool) : Json
  | num (n : Int) : Json
  | str (s : String) : Json
  | arr (xs : List Json) : Json
  | obj (kvs : List (String × Json)) : Json
  deriving Repr, BEq

/-- Dict lookup, first match (keys are unique in values built by the code). -/
def lookupKV : List (String × Json) → String → Option Json
  | [], _ => none
  | (k, v) :: rest, key => if k = key then some v else lookupKV rest key

/-- Python `d.get(k)` on a dict; `none` on a non-dict (callers that may
hit a non-dict model the AttributeError separately). -/
def Json.get : Json → String → Option Json
  | .obj kvs, k => lookupKV kvs k
  | _, _ => none

/-- Python truthiness of a value (`bool(v)`). -/
def Json.truthy : Json → Bool
  | .null => false
  | .bool b => b
  | .num n => n != 0
  | .str s => !s.isEmpty
  | .arr xs => !xs.isEmpty
  | .obj kvs => !kvs.isEmpty

/-- The string carried by a value, when it is one.  Python `==`
between a non-string value and a string literal is `False`, so the
code's string comparisons factor through this projection. -/
def optStr : Option Json → Option String
  | some (.str s) => some s
  | _ => none

/-- Dict assignment `d[k] = v`: replace in place, else append. -/
def setKV : List (String × Json) → String → Json → List (String × Json)
  | [], k, v => [(k, v)]
  | (k', v') :: rest, k, v =>
      if k' = k then (k, v) :: rest else (k', v') :: setKV rest k v

/-- Python `d.setdefault(k, v)`: append only when the key is absent. -/
def setdefaultKV (kvs : List (String × Json)) (k : String) (v : Json) :
    List (String × Json) :=
  match lookupKV kvs k with
  | some _ => kvs
  | none => kvs ++ [(k, v)]

/-- Python `str(v)` as used in f-strings.  Container reprs are
abbreviated; no claim in scope depends on them. -/
def pyStr : Json → String
  | .str s => s
  | .num n => toString n
  | .bool true => "True"
  | .bool false => "False"
  | .null => "None"
  | .arr _ => "[...]"
  | .obj _ => "..."

/-- `str(v)` where `v` may be Python `None` from a failed `.get`. -/
def pyStrOpt : Option Json → String
  | some v => pyStr v
  | none => "None"

/-- Python whitespace for `str.strip` and regex `\s` (ASCII range). -/
def pyIsSpace (c : Char) : Bool :=
  c = ' ' || c = '\t' || c = '\n' || c = '\r' || c = '\x0b' || c = '\x0c'

/-- Python `str.lower` (ASCII case mapping, which covers the
keyword/phrase matching the code performs). -/
def pyLower (s : String) : String := (s.toList.map Char.toLower).asString

/-- Python `str.strip()`. -/
def pyStrip (s : String) : String :=
  (((s.toList.dropWhile pyIsSpace).reverse.dropWhile pyIsSpace).reverse).asString

/-- Regex `\w` on ASCII text: letters, digits, underscore. -/
def isWordChar (c : Char) : Bool := c.isAlphanum || c = '_'

/-- Does `hay` start with `needle`? -/
def startsWithL : List Char → List Char → Bool
  | [], _ => true
  | _ :: _, [] => false
  | a :: as, b :: bs => a = b && startsWithL as bs

/-- Substring occurrence (Python `needle in hay`). -/
def containsL (w : List Char) : List Char → Bool
  | [] => startsWithL w []
  | l@(_ :: rest) => startsWithL w l || containsL w rest

/-- Search: some word of `ws` occurs, with `next` holding on the rest
of the text after it.  Models scanning `(w1|w2|...)` at any position. -/
def seekAny (ws : List (List Char)) (next : List Char → Bool) : List Char → Bool
  | [] => ws.any fun w => startsWithL w [] && next []
  | l@(_ :: rest) =>
      (ws.any fun w => startsWithL w l && next (l.drop w.length)) ||
      seekAny ws next rest

/-- Like `seekAny` but the scan may not cross a newline: models a
regex `.*(w1|w2|...)` segment (Python `.` does not match newline). -/
def seekNoNl (ws : List (List Char)) (next : List Char → Bool) : List Char → Bool
  | [] => ws.any fun w => startsWithL w [] && next []
  | l@(c :: rest) =>
      (ws.any fun w => startsWithL w l && next (l.drop w.length)) ||
      (c != '\n' && seekNoNl ws next rest)

/-- Boundary test for the position before a `\b`-anchored match. -/
def bndBefore : Option Char → Bool
  | none => true
  | some c => !isWordChar c

/-- Boundary test after a match that ends in a word character. -/
def bndAfter : List Char → Bool
  | [] => true
  | c :: _ => !isWordChar c

/-- Scan all positions for a `\b`-anchored pattern `p` (the pattern's
own trailing boundary is part of `p`).  `prev` is the previous char. -/
def scanB (p : List Char → Bool) : Option Char → List Char → Bool
  | prev, [] => bndBefore prev && p []
  | prev, l@(c :: rest) => (bndBefore prev && p l) || scanB p (some c) rest

/-- Literal-word combinator: match `w` then continue with `next`. -/
def lit (w : String) (next : List Char → Bool) (l : List Char) : Bool :=
  startsWithL w.toList l && next (l.drop w.toList.length)

/-- Regex `\s+` then `next` (any split with at least one space). -/
def wsPlus (next : List Char → Bool) : List Char → Bool
  | [] => false
  | c :: rest => pyIsSpace c && (next rest || wsPlus next rest)

/-- `re.search(r"\bw\b", t)` for a literal word/phrase `w`. -/
def searchWordB (w : String) (t : List Char) : Bool :=
  scanB (lit w bndAfter) none t

-- ----- Gregorian calendar (Python `datetime.date`, day arithmetic) -----

/-- Calendar date as Python's `datetime.date` (year, month 1..12, day). -/
structure Date where
  year : Int
  month : Nat
  day : Nat
  deriving Repr, DecidableEq

/-- Days since the civil epoch 1970-01-01 (standard civil-calendar
conversion, floor arithmetic). -/
def daysFromCivil (d : Date) : Int :=
  let y : Int := d.year - (if d.month ≤ 2 then 1 else 0)
  let era : Int := y.ediv 400
  let yoe : Int := y - era * 400
  let mp : Int := (d.month : Int) + (if 2 < d.month then -3 else 9)
  let doy : Int := (153 * mp + 2).ediv 5 + (d.day : Int) - 1
  let doe : Int := yoe * 365 + yoe.ediv 4 - yoe.ediv 100 + doy
  era * 146097 + doe - 719468

/-- Inverse of `daysFromCivil`. -/
def civilFromDays (z0 : Int) : Date :=
  let z : Int := z0 + 719468
  let era : Int := z.ediv 146097
  let doe : Int := z - era * 146097
  let yoe : Int := (doe - doe.ediv 1460 + doe.ediv 36524 - doe.ediv 146096).ediv 365
  let y : Int := yoe + era * 400
  let doy : Int := doe - (365 * yoe + yoe.ediv 4 - yoe.ediv 100)
  let mp : Int := (5 * doy + 2).ediv 153
  let d : Int := doy - (153 * mp + 2).ediv 5 + 1
  let m : Int := mp + (if mp < 10 then 3 else -9)
  { year := y + (if m ≤ 2 then 1 else 0), month := m.toNat, day := d.toNat }

/-- `d - timedelta(days = n)`. -/
def dateSubDays (d : Date) (n : Int) : Date := civilFromDays (daysFromCivil d - n)

/-- Zero-padded decimal rendering. -/
def padNum (width n : Nat) : String :=
  let s := toString n
  if s.length < width then (List.replicate (width - s.length) '0').asString ++ s
  else s

/-- Python `date.isoformat()` (supported years are positive). -/
def Date.iso (d : Date) : String :=
  padNum 4 d.year.toNat ++ "-" ++ padNum 2 d.month ++ "-" ++ padNum 2 d.day

/-- Split a character list on a separator character. -/
def splitOnChar (c : Char) : List Char → List (List Char)
  | [] => [[]]
  | x :: rest =>
    let r := splitOnChar c rest
    if x = c then [] :: r
    else
      match r with
      | [] => [[x]]
      | h :: t => (x :: h) :: t

/-- Decimal value of a digit run. -/
def digitsToNatL (ds : List Char) : Nat :=
  ds.foldl (fun a c => a * 10 + (c.toNat - 48)) 0

/-- Parse a non-empty all-digit run. -/
def parseNatL (l : List Char) : Option Nat :=
  if !l.isEmpty && l.all Char.isDigit then some (digitsToNatL l) else none

/-- Parse `YYYY-MM-DD` (Python `date.fromisoformat`; the code only
parses strings it produced itself, which are well formed). -/
def parseIsoDate (s : String) : Option Date :=
  match splitOnChar '-' s.toList with
  | [y, m, d] =>
    (match parseNatL y, parseNatL m, parseNatL d with
     | some yn, some mn, some dn =>
       some { year := (yn : Int), month := mn, day := dn }
     | _, _, _ => none)
  | _ => none

-- ===== agent.py =====

/-- `READ_ONLY_TOOLS` from agent.py: tools safe to execute under dry_run. -/
def READ_ONLY_TOOLS : List String :=
  ["get_sales_stats", "get_purchase_stats", "get_inventory_snapshot",
   "run_sql", "run_report"]

/-- The tool catalog of the planner prompt (`PLANNER_SYSTEM` in
llm_client.py), identical to the names handled by `execute`'s
dispatch chain. -/
def TOOL_CATALOG : List String :=
  ["create_doctype", "update_doctype", "create_workflow",
   "create_query_report", "create_script_report", "run_sql", "run_report",
   "get_sales_stats", "get_purchase_stats", "get_inventory_snapshot",
   "create_task", "enqueue_background_job"]

/-- The mutating registry members (document/doctype/workflow/report
creation and update, task creation, background-job enqueue). -/
def MUTATING_TOOLS : List String :=
  ["create_doctype", "update_doctype", "create_workflow",
   "create_query_report", "create_script_report", "create_task",
   "enqueue_background_job"]

/-- The tools that `execute`'s dispatch chain calls with
`idempotency_key=idem` (agent.py lines 118-139): every mutating tool
except `enqueue_background_job`. -/
def IDEM_TOOLS : List String :=
  ["create_doctype", "update_doctype", "create_workflow",
   "create_query_report", "create_script_report", "create_task"]

/-- `_add_months` from agent.py (floor division as Python `//`, `%`;
the day is clamped to 28). -/
def addMonths (d : Date) (months : Int) : Date :=
  let t : Int := (d.month : Int) - 1 + months
  { year := d.year + t.ediv 12, month := (t.emod 12 + 1).toNat, day := min d.day 28 }

/-- `_last_n_month_range` from agent.py, with `date.today()` passed in. -/
def lastNMonthRange (today : Date) (n : Nat) : String × String :=
  let start := addMonths { today with day := 1 } (-((n : Int) - 1))
  (start.iso, today.iso)

/-- The regex `(best|top|highest).*(selling|sales).*(month)` of
`_fastpath`, searched at any position; `.` does not cross newlines. -/
def fastRegex1 (l : List Char) : Bool :=
  seekAny ["best".toList, "top".toList, "highest".toList]
    (seekNoNl ["selling".toList, "sales".toList]
      (seekNoNl ["month".toList] fun _ => true)) l

/-- `_fastpath` from agent.py. -/
def fastpath (today : Date) (command : String) : Option Json :=
  let lc := (pyStrip (pyLower command)).toList
  if fastRegex1 lc || containsL "best selling month".toList lc then
    let r := lastNMonthRange today 12
    some (Json.obj
      [("intent", Json.str "analytics"),
       ("steps", Json.arr [Json.obj
          [("tool", Json.str "get_sales_stats"),
           ("args", Json.obj
              [("by", Json.str "month"), ("from_date", Json.str r.1),
               ("to_date", Json.str r.2)])]]),
       ("confirm_required", Json.bool false),
       ("risks", Json.arr [Json.str "Assumes last 12 months; adjust if needed."])])
  else if containsL "top customers".toList lc then
    let r := lastNMonthRange today 12
    some (Json.obj
      [("intent", Json.str "analytics"),
       ("steps", Json.arr [Json.obj
          [("tool", Json.str "get_sales_stats"),
           ("args", Json.obj
              [("by", Json.str "customer"), ("from_date", Json.str r.1),
               ("to_date", Json.str r.2)])]]),
       ("confirm_required", Json.bool false),
       ("risks", Json.arr [])])
  else if containsL "top items".toList lc || containsL "best sellers".toList lc then
    let r := lastNMonthRange today 12
    some (Json.obj
      [("intent", Json.str "analytics"),
       ("steps", Json.arr [Json.obj
          [("tool", Json.str "get_sales_stats"),
           ("args", Json.obj
              [("by", Json.str "item"), ("from_date", Json.str r.1),
               ("to_date", Json.str r.2)])]]),
       ("confirm_required", Json.bool false),
       ("risks", Json.arr [])])
  else none

/-- The step filter of classify_and_plan line 84:
`isinstance(s, dict) and s.get("tool")` (truthy tool). -/
def stepKeep (s : Json) : Bool :=
  match s with
  | .obj kvs =>
    match lookupKV kvs "tool" with
    | some v => v.truthy
    | none => false
  | _ => false

/-- One step of `_normalize_steps`.  `args.copy()` succeeds on dicts
and lists and raises on other truthy values; `setdefault` (applied for
the two stats tools) raises on a list. -/
def normalizeStep (f t : String) (s : Json) : Except Unit Json :=
  match s with
  | .obj kvs => do
    let toolv := lookupKV kvs "tool"
    let argsRaw := match lookupKV kvs "args" with
      | some v => if v.truthy then v else Json.obj []
      | none => Json.obj []
    let args0 ← (match argsRaw with
      | Json.obj aks => Except.ok (Json.obj aks)
      | Json.arr xs => Except.ok (Json.arr xs)
      | _ => Except.error ())
    let args1 ← (if optStr toolv = some "get_sales_stats" then
        match args0 with
        | Json.obj aks =>
          Except.ok (Json.obj (setdefaultKV (setdefaultKV (setdefaultKV aks
            "by" (Json.str "month")) "from_date" (Json.str f)) "to_date" (Json.str t)))
        | _ => Except.error ()
      else Except.ok args0)
    let args2 ← (if optStr toolv = some "get_purchase_stats" then
        match args1 with
        | Json.obj aks =>
          Except.ok (Json.obj (setdefaultKV (setdefaultKV (setdefaultKV aks
            "by" (Json.str "month")) "from_date" (Json.str f)) "to_date" (Json.str t)))
        | _ => Except.error ()
      else Except.ok args1)
    Except.ok (Json.obj [("tool", toolv.getD Json.null), ("args", args2)])
  | _ => Except.error ()

/-- `_normalize_steps` over a step list (it is only called on steps
that passed `stepKeep`, which are dicts). -/
def normalizeStepsL (f t : String) : List Json → Except Unit (List Json)
  | [] => Except.ok []
  | s :: rest => do
    let s' ← normalizeStep f t s
    let rest' ← normalizeStepsL f t rest
    Except.ok (s' :: rest')

/-- Python iteration `for s in v`: lists yield elements, strings yield
1-char strings, dicts yield their keys; other values raise TypeError. -/
def pyIter : Json → Except Unit (List Json)
  | .arr xs => Except.ok xs
  | .str s => Except.ok (s.toList.map fun c => Json.str c.toString)
  | .obj kvs => Except.ok (kvs.map fun kv => Json.str kv.1)
  | _ => Except.error ()

/-- The body of classify_and_plan's `try:` block, acting on the parsed
completion output (`none` models `json.loads` raising on non-JSON). -/
def tryPlan (today : Date) (parsed : Option Json) : Except Unit Json := do
  let plan ← (match parsed with
    | some p => Except.ok p
    | none => Except.error ())
  match plan with
  | Json.obj kvs =>
    match lookupKV kvs "steps" with
    | none => Except.error ()
    | some stepsVal => do
      let raw ← pyIter stepsVal
      let filtered := raw.filter stepKeep
      let r := lastNMonthRange today 12
      let normed ← normalizeStepsL r.1 r.2 filtered
      Except.ok (Json.obj (setKV kvs "steps" (Json.arr normed)))
  | _ => Except.error ()

/-- The hard-coded fallback plan of classify_and_plan's `except` arm. -/
def fallbackPlan (today : Date) : Json :=
  let r := lastNMonthRange today 12
  Json.obj
    [("intent", Json.str "analytics"),
     ("steps", Json.arr [Json.obj
        [("tool", Json.str "get_sales_stats"),
         ("args", Json.obj
            [("by", Json.str "month"), ("from_date", Json.str r.1),
             ("to_date", Json.str r.2)])]]),
     ("confirm_required", Json.bool false),
     ("risks", Json.arr [Json.str "planner_fallback"])]

/-- Errors the completion client can raise out of `complete`. -/
inductive LLMErr where
  | circuitOpen
  | connErr
  | rateErr
  | statusErr
  | otherErr
  deriving Repr, DecidableEq

/-- `classify_and_plan` from agent.py.  The completion outcome is an
oracle input: `.error e` models `llm.complete` raising (this happens
before the `try:` block and is not caught); `.ok none` models a reply
that `json.loads` rejects; `.ok (some v)` models a parsed reply `v`.
The boolean records whether the completion client was invoked. -/
def classify_and_plan (today : Date) (command : String)
    (llmOutcome : Except LLMErr (Option Json)) : Except LLMErr Json × Bool :=
  match fastpath today command with
  | some plan => (Except.ok plan, false)
  | none =>
    match llmOutcome with
    | Except.error e => (Except.error e, true)
    | Except.ok parsed =>
      match tryPlan today parsed with
      | Except.ok p => (Except.ok p, true)
      | Except.error _ => (Except.ok (fallbackPlan today), true)

/-- One invocation of a registry tool: the keyword arguments of the
call and the idempotency token, when one was passed. -/
structure ToolCall where
  tool : String
  args : List (String × Json)
  idem : Option String
  deriving Repr, BEq

/-- `tool not in READ_ONLY_TOOLS` where `tool` is whatever `step.get`
returned and `READ_ONLY_TOOLS` is a Python set: a string tests
membership, a list or dict value is unhashable and raises TypeError,
and every other value is simply not a member. -/
def notInReadOnly (toolv : Option Json) : Except Unit Bool :=
  match toolv with
  | some (Json.str s) => Except.ok (!READ_ONLY_TOOLS.contains s)
  | some (Json.arr _) => Except.error ()
  | some (Json.obj _) => Except.error ()
  | _ => Except.ok true

/-- `f(**args)` needs a mapping; other values raise TypeError. -/
def kwargsOf (args : Json) : Except Unit (List (String × Json)) :=
  match args with
  | Json.obj aks => Except.ok aks
  | _ => Except.error ()

/-- Dispatch `ft.name(**args, idempotency_key=idem)`: a duplicate
`idempotency_key` keyword raises TypeError. -/
def callWithIdem (reg : ToolCall → Json) (idem : String) (name : String)
    (args : Json) : Except Unit (ToolCall × Json) :=
  match args with
  | Json.obj aks =>
    if (lookupKV aks "idempotency_key").isSome then Except.error ()
    else
      let c : ToolCall := ⟨name, aks, some idem⟩
      Except.ok (c, reg c)
  | _ => Except.error ()

/-- Dispatch `ft.name(**args)` without an idempotency token. -/
def callPlain (reg : ToolCall → Json) (name : String) (args : Json) :
    Except Unit (ToolCall × Json) :=
  match args with
  | Json.obj aks =>
    let c : ToolCall := ⟨name, aks, none⟩
    Except.ok (c, reg c)
  | _ => Except.error ()

/-- The `elif` dispatch chain of `execute` (agent.py lines 118-143):
returns the calls made (zero or one) and the recorded payload.
`run_sql` and `get_inventory_snapshot` results are wrapped in a
`rows` dict; an unrecognized tool records an error payload and makes
no call; `enqueue_background_job` is called without the token. -/
def dispatchStep (reg : ToolCall → Json) (idem : String) (toolv : Option Json)
    (args : Json) : Except Unit (List ToolCall × Json) :=
  match optStr toolv with
  | some t =>
    if t = "create_doctype" then
      match callWithIdem reg idem "create_doctype" args with
      | Except.error e => Except.error e
      | Except.ok r => Except.ok ([r.1], r.2)
    else if t = "update_doctype" then
      match callWithIdem reg idem "update_doctype" args with
      | Except.error e => Except.error e
      | Except.ok r => Except.ok ([r.1], r.2)
    else if t = "create_workflow" then
      match callWithIdem reg idem "create_workflow" args with
      | Except.error e => Except.error e
      | Except.ok r => Except.ok ([r.1], r.2)
    else if t = "create_query_report" then
      match callWithIdem reg idem "create_query_report" args with
      | Except.error e => Except.error e
      | Except.ok r => Except.ok ([r.1], r.2)
    else if t = "create_script_report" then
      match callWithIdem reg idem "create_script_report" args with
      | Except.error e => Except.error e
      | Except.ok r => Except.ok ([r.1], r.2)
    else if t = "run_report" then
      match callPlain reg "run_report" args with
      | Except.error e => Except.error e
      | Except.ok r => Except.ok ([r.1], r.2)
    else if t = "run_sql" then
      match callPlain reg "run_sql" args with
      | Except.error e => Except.error e
      | Except.ok r => Except.ok ([r.1], Json.obj [("rows", r.2)])
    else if t = "get_sales_stats" then
      match callPlain reg "get_sales_stats" args with
      | Except.error e => Except.error e
      | Except.ok r => Except.ok ([r.1], r.2)
    else if t = "get_purchase_stats" then
      match callPlain reg "get_purchase_stats" args with
      | Except.error e => Except.error e
      | Except.ok r => Except.ok ([r.1], r.2)
    else if t = "get_inventory_snapshot" then
      match callPlain reg "get_inventory_snapshot" args with
      | Except.error e => Except.error e
      | Except.ok r => Except.ok ([r.1], Json.obj [("rows", r.2)])
    else if t = "create_task" then
      match callWithIdem reg idem "create_task" args with
      | Except.error e => Except.error e
      | Except.ok r => Except.ok ([r.1], r.2)
    else if t = "enqueue_background_job" then
      match callPlain reg "enqueue_background_job" args with
      | Except.error e => Except.error e
      | Except.ok r => Except.ok ([r.1], r.2)
    else
      Except.ok ([], Json.obj [("error", Json.str ("unknown tool " ++ pyStrOpt toolv))])
  | none =>
    Except.ok ([], Json.obj [("error", Json.str ("unknown tool " ++ pyStrOpt toolv))])
/-- Extract `step.get("tool")` and `step.get("args", \x7b\x7d) or \x7b\x7d`;
a non-dict step raises AttributeError. -/
def stepFields (s : Json) : Except Unit (Option Json × Json) :=
  match s with
  | .obj kvs =>
    let toolv := lookupKV kvs "tool"
    let args := match lookupKV kvs "args" with
      | some v => if v.truthy then v else Json.obj []
      | none => Json.obj []
    Except.ok (toolv, args)
  | _ => Except.error ()

/-- The per-step loop of `execute` (agent.py lines 108-144), with
1-based `idx`.  Under dry_run, a tool outside `READ_ONLY_TOOLS` is
recorded as a skipped outcome and not invoked.  Returns the recorded
outcomes, the trace of tool calls, and whether the loop raised. -/
def runSteps (reg : ToolCall → Json) (idem : String) (dry : Bool) :
    Nat → List Json → List Json × List ToolCall × Bool
  | _, [] => ([], [], false)
  | idx, s :: rest =>
    match stepFields s with
    | Except.error _ => ([], [], true)
    | Except.ok (toolv, args) =>
      match (if dry then notInReadOnly toolv else Except.ok false) with
      | Except.error _ => ([], [], true)
      | Except.ok skip =>
      if skip then
        let outcome := Json.obj
          [("step", Json.num idx), ("tool", toolv.getD Json.null),
           ("dry_run", Json.bool true), ("args", args)]
        let r := runSteps reg idem dry (idx + 1) rest
        (outcome :: r.1, r.2.1, r.2.2)
      else
        match dispatchStep reg idem toolv args with
        | Except.error _ => ([], [], true)
        | Except.ok (cs, res) =>
          let outcome := Json.obj
            [("step", Json.num idx), ("tool", toolv.getD Json.null),
             ("result", res)]
          let r := runSteps reg idem dry (idx + 1) rest
          (outcome :: r.1, cs ++ r.2.1, r.2.2)

/-- `float(x.get("revenue") or 0)` at integer precision: numbers and
booleans convert; numeric strings are parsed as integers (fractional
string revenues are outside the behaviors the claims touch); other
values raise. -/
def revenueKey (x : Json) : Except Unit Int := do
  let g ← (match x with
    | Json.obj kvs => Except.ok (lookupKV kvs "revenue")
    | _ => Except.error ())
  let v := match g with
    | some w => if w.truthy then w else Json.num 0
    | none => Json.num 0
  match v with
  | Json.num n => Except.ok n
  | Json.bool b => Except.ok (if b then 1 else 0)
  | Json.str s =>
    match s.toInt? with
    | some n => Except.ok n
    | none => Except.error ()
  | _ => Except.error ()

/-- Python `max(rows, key=...)`: first element with the maximal key. -/
def maxByKeyAux (k : Json → Except Unit Int) :
    Int → Json → List Json → Except Unit Json
  | _, best, [] => Except.ok best
  | bk, best, x :: rest => do
    let xk ← k x
    if bk < xk then maxByKeyAux k xk x rest else maxByKeyAux k bk best rest

/-- The best-effort summary scan of `execute` (agent.py lines 147-156):
find the first `get_sales_stats` outcome whose rows look like
period/revenue dicts and name the highest-revenue period. -/
def summaryScan : List Json → Except Unit (Option String)
  | [] => Except.ok none
  | r :: rest => do
    let toolv ← (match r with
      | Json.obj kvs => Except.ok (lookupKV kvs "tool")
      | _ => Except.error ())
    if optStr toolv = some "get_sales_stats" then do
      let dataRaw := (match r with
        | Json.obj kvs => lookupKV kvs "result"
        | _ => none)
      let data := match dataRaw with
        | some v => if v.truthy then v else Json.obj []
        | none => Json.obj []
      let rowsRaw ← (match data with
        | Json.obj kvs => Except.ok (lookupKV kvs "rows")
        | _ => Except.error ())
      let rows := match rowsRaw with
        | some v => if v.truthy then v else Json.arr []
        | none => Json.arr []
      if rows.truthy then do
        let elems ← (match rows with
          | Json.arr xs => Except.ok xs
          | Json.str s => Except.ok (s.toList.map fun c => Json.str c.toString)
          | _ => Except.error ())
        let firstOk := match elems.head? with
          | some (Json.obj kvs) =>
            (lookupKV kvs "period").isSome && (lookupKV kvs "revenue").isSome
          | _ => false
        if firstOk then do
          let best ← (match elems with
            | [] => Except.error ()
            | x :: xs => do
              let k0 ← revenueKey x
              maxByKeyAux revenueKey k0 x xs)
          let period ← (match best with
            | Json.obj kvs =>
              match lookupKV kvs "period" with
              | some v => Except.ok v
              | none => Except.error ()
            | _ => Except.error ())
          let revenue ← (match best with
            | Json.obj kvs =>
              match lookupKV kvs "revenue" with
              | some v => Except.ok v
              | none => Except.error ()
            | _ => Except.error ())
          Except.ok (some ("Best selling month (last 12 months): " ++
            pyStr period ++ " â€¢ Revenue=" ++ pyStr revenue))
        else summaryScan rest
      else summaryScan rest
    else summaryScan rest

/-- `steps = plan.get("steps", [])[:8]` then iteration: slicing works
on lists and strings (a sliced string iterates as 1-char strings) and
raises on other values. -/
def pySlice8 : Json → Except Unit (List Json)
  | Json.arr xs => Except.ok (xs.take 8)
  | Json.str s => Except.ok ((s.toList.take 8).map fun c => Json.str c.toString)
  | _ => Except.error ()

/-- `confirm_needed` of agent.py line 104:
`bool(plan.get("confirm_required")) or (intent in {"structural_change"})`
where `intent = plan.get("intent", "analytics")`.  The `or`
short-circuits past the set-membership test when `confirm_required` is
truthy; otherwise an unhashable (list/dict) intent raises TypeError. -/
def confirmNeeded (plan : Json) : Except Unit Bool :=
  if ((plan.get "confirm_required").getD Json.null).truthy then Except.ok true
  else
    match (plan.get "intent").getD (Json.str "analytics") with
    | Json.str s => Except.ok (s == "structural_change")
    | Json.arr _ => Except.error ()
    | Json.obj _ => Except.error ()
    | _ => Except.ok false

/-- Errors that can escape `execute`: a propagated completion-client
error, or a Python runtime error raised by the embedded code. -/
inductive ExecErr where
  | llm (e : LLMErr)
  | runtime
  deriving Repr, DecidableEq

/-- The outcome of `execute`: its return value (or escaped error), the
trace of registry tool calls, and whether the completion client ran. -/
structure ExecOut where
  result : Except ExecErr Json
  calls : List ToolCall
  llmCalled : Bool

/-- Python truthiness of `confirm_token` (`not confirm_token` is true
for `None` and for the empty string). -/
def tokenFalsy : Option String → Bool
  | none => true
  | some s => s.isEmpty

/-- `execute` from agent.py.  `corrId` and `idemTok` stand for the two
`uuid.uuid4()` draws; `reg` is the tool registry oracle; `llmOutcome`
is the completion oracle consumed by `classify_and_plan`. -/
def execute (today : Date) (corrId idemTok : String) (reg : ToolCall → Json)
    (llmOutcome : Except LLMErr (Option Json)) (command _user : String)
    (dry_run : Bool) (confirm_token : Option String) : ExecOut :=
  let cp := classify_and_plan today command llmOutcome
  match cp.1 with
  | Except.error e => ⟨Except.error (ExecErr.llm e), [], cp.2⟩
  | Except.ok plan =>
    match pySlice8 ((plan.get "steps").getD (Json.arr [])) with
    | Except.error _ => ⟨Except.error ExecErr.runtime, [], cp.2⟩
    | Except.ok steps =>
      match confirmNeeded plan with
      | Except.error _ => ⟨Except.error ExecErr.runtime, [], cp.2⟩
      | Except.ok cn =>
      if cn && tokenFalsy confirm_token && !dry_run then
        ⟨Except.ok (Json.obj
          [("status", Json.str "awaiting_confirmation"),
           ("correlation_id", Json.str corrId), ("plan", plan)]), [], cp.2⟩
      else
        let r := runSteps reg idemTok dry_run 1 steps
        if r.2.2 then ⟨Except.error ExecErr.runtime, r.2.1, cp.2⟩
        else
          match summaryScan r.1 with
          | Except.error _ => ⟨Except.error ExecErr.runtime, r.2.1, cp.2⟩
          | Except.ok summ =>
            match summ with
            | some s => ⟨Except.ok (Json.obj
                [("status", Json.str "completed"),
                 ("correlation_id", Json.str corrId), ("plan", plan),
                 ("results", Json.arr r.1), ("summary", Json.str s)]),
              r.2.1, cp.2⟩
            | none => ⟨Except.ok (Json.obj
                [("status", Json.str "completed"),
                 ("correlation_id", Json.str corrId), ("plan", plan),
                 ("results", Json.arr r.1)]), r.2.1, cp.2⟩

-- ===== llm_client.py =====

/-- Outcome of one raw backend call (`LLMClient._call`), classified as
the `except` clauses of `complete` and the tenacity retry filter see
it: success (the message content, possibly `None`), a connectivity
error, a rate-limit error, another API status error, or any other
exception. -/
inductive BackendOutcome where
  | ok (content : Option String)
  | connErr
  | rateErr
  | statusErr
  | otherErr
  deriving Repr, DecidableEq

/-- `LLMClient._check_circuit`, with `time.time()` passed in (timestamps
at integer granularity): prune the failure window to the trailing 90
seconds, then trip iff at least 3 failures remain and the most recent
one is less than 30 seconds old.  Returns (tripped, pruned window). -/
def checkCircuit (now : Int) (w : List Int) : Bool × List Int :=
  let w' := w.filter fun t => now - t < 90
  ((decide (3 ≤ w'.length)) &&
    (match w'.getLast? with
     | some t => decide (now - t < 30)
     | none => false), w')

/-- The tenacity `wait_exponential(multiplier=1, min=1, max=10)` delay
after the n-th failed attempt (n is 1-based): `2^n` clamped to [1,10]. -/
def waitAfter (n : Nat) : Int := max 1 (min ((2 : Int) ^ n) 10)

/-- Result of one `complete` call (after tenacity gives up or succeeds). -/
inductive CompleteResult where
  | content (c : Option String)
  | circuitTripped
  | raised (e : BackendOutcome)
  deriving Repr, DecidableEq

/-- Observable outcome of a `complete` call: its result, the failure
window left behind, and how many backend calls were attempted. -/
structure CompleteRun where
  result : CompleteResult
  window : List Int
  attempts : Nat
  deriving Repr, DecidableEq

/-- The retry loop that `@retry(...)` wraps around `complete`:
each attempt re-enters `complete`, so the circuit is re-checked (and
the window re-pruned) per attempt; a connectivity or rate-limit
failure is recorded in the window and retried while retries remain
(3 attempts total); a plain API status error is recorded but not
retried; any other exception is neither recorded nor retried; the
circuit-open rejection happens before the backend call.  `backend k`
is the oracle outcome of the k-th attempt; `now` advances by the
backoff delay between attempts. -/
def completeLoop (backend : Nat → BackendOutcome) :
    Nat → Nat → Int → List Int → Nat → CompleteRun
  | 0, attempt, now, w, calls =>
    let c := checkCircuit now w
    if c.1 then ⟨CompleteResult.circuitTripped, c.2, calls⟩
    else
      match backend attempt with
      | BackendOutcome.ok content => ⟨CompleteResult.content content, c.2, calls + 1⟩
      | BackendOutcome.connErr =>
        ⟨CompleteResult.raised BackendOutcome.connErr, c.2 ++ [now], calls + 1⟩
      | BackendOutcome.rateErr =>
        ⟨CompleteResult.raised BackendOutcome.rateErr, c.2 ++ [now], calls + 1⟩
      | BackendOutcome.statusErr =>
        ⟨CompleteResult.raised BackendOutcome.statusErr, c.2 ++ [now], calls + 1⟩
      | BackendOutcome.otherErr =>
        ⟨CompleteResult.raised BackendOutcome.otherErr, c.2, calls + 1⟩
  | rl + 1, attempt, now, w, calls =>
    let c := checkCircuit now w
    if c.1 then ⟨CompleteResult.circuitTripped, c.2, calls⟩
    else
      match backend attempt with
      | BackendOutcome.ok content => ⟨CompleteResult.content content, c.2, calls + 1⟩
      | BackendOutcome.connErr =>
        completeLoop backend rl (attempt + 1) (now + waitAfter attempt)
          (c.2 ++ [now]) (calls + 1)
      | BackendOutcome.rateErr =>
        completeLoop backend rl (attempt + 1) (now + waitAfter attempt)
          (c.2 ++ [now]) (calls + 1)
      | BackendOutcome.statusErr =>
        ⟨CompleteResult.raised BackendOutcome.statusErr, c.2 ++ [now], calls + 1⟩
      | BackendOutcome.otherErr =>
        ⟨CompleteResult.raised BackendOutcome.otherErr, c.2, calls + 1⟩

/-- `LLMClient.complete` under `stop_after_attempt(3)`: at most two
retries after the first attempt. -/
def complete (backend : Nat → BackendOutcome) (now : Int) (w : List Int) :
    CompleteRun :=
  completeLoop backend 2 1 now w 0

-- ===== router.py: detection helpers =====

/-- Alternation of `\b`-anchored pattern branches at one position. -/
def altB (ps : List (List Char → Bool)) (l : List Char) : Bool :=
  ps.any fun p => p l

/-- `re.search(r"\b(p1|p2|...)\b", t)` for literal/`\s+` branches. -/
def searchGroupB (ps : List (List Char → Bool)) (t : List Char) : Bool :=
  scanB (altB ps) none t

/-- `_first_day_of_year` from router.py. -/
def firstDayOfYear (d : Date) : Date := ⟨d.year, 1, 1⟩

/-- `_first_day_of_month` from router.py. -/
def firstDayOfMonth (d : Date) : Date := ⟨d.year, d.month, 1⟩

/-- `_last_day_of_month` from router.py. -/
def lastDayOfMonth (d : Date) : Date :=
  if d.month = 12 then ⟨d.year, 12, 31⟩
  else dateSubDays ⟨d.year, d.month + 1, 1⟩ 1

/-- `_parse_date_range` from router.py, with `date.today()` passed in:
returns ISO from/to dates and a human label, defaulting to the
trailing 365 days. -/
def parseDateRange (today : Date) (text : String) : String × String × String :=
  let t := (pyLower text).toList
  if searchGroupB [lit "ytd" bndAfter, lit "this year" bndAfter,
      lit "year to date" bndAfter] t then
    ((firstDayOfYear today).iso, today.iso, "this year")
  else if searchGroupB
      [lit "last" (wsPlus (lit "12" (wsPlus (lit "months" bndAfter)))),
       lit "l12m" bndAfter] t then
    ((dateSubDays today 365).iso, today.iso, "last 12 months")
  else if searchGroupB
      [lit "last" (wsPlus (lit "30" (wsPlus (lit "days" bndAfter))))] t then
    ((dateSubDays today 30).iso, today.iso, "last 30 days")
  else if searchGroupB [lit "this month" bndAfter, lit "mtd" bndAfter,
      lit "month to date" bndAfter] t then
    ((firstDayOfMonth today).iso, today.iso, "this month")
  else if searchGroupB [lit "last month" bndAfter] t then
    let lm := dateSubDays { today with day := 1 } 1
    ((firstDayOfMonth lm).iso, (lastDayOfMonth lm).iso, "last month")
  else if searchGroupB [lit "today" bndAfter] t then
    (today.iso, today.iso, "today")
  else if searchGroupB [lit "yesterday" bndAfter] t then
    let y := dateSubDays today 1
    (y.iso, y.iso, "yesterday")
  else
    ((dateSubDays today 365).iso, today.iso, "last 12 months")

/-- Option-valued scan for a `\b`-anchored extracting pattern. -/
def scanBO (p : List Char → Option Nat) : Option Char → List Char → Option Nat
  | prev, [] => if bndBefore prev then p [] else none
  | prev, l@(c :: rest) =>
    (if bndBefore prev then p l else none) <|> scanBO p (some c) rest

/-- `\s+` then an extracting pattern. -/
def wsPlusO (next : List Char → Option Nat) : List Char → Option Nat
  | [] => none
  | c :: rest => if pyIsSpace c then next rest <|> wsPlusO next rest else none

/-- Decimal value of a digit run. -/
def digitsToNat (ds : List Char) : Nat :=
  ds.foldl (fun a c => a * 10 + (c.toNat - 48)) 0

/-- The `(\d{1,3})\b` tail of the top-N regex: a maximal digit run of
length 1..3 followed by a non-word character (or end). -/
def topDigits (l : List Char) : Option Nat :=
  let ds := l.takeWhile Char.isDigit
  if decide (1 ≤ ds.length) && decide (ds.length ≤ 3) &&
      bndAfter (l.drop ds.length) then
    some (digitsToNat ds)
  else none

/-- `_detect_top_n` from router.py: `\btop\s+(\d{1,3})\b` on the
lowered text, clamped to [1, 200]. -/
def detectTopN (text : String) : Option Nat :=
  match scanBO
      (fun l => if startsWithL "top".toList l then wsPlusO topDigits (l.drop 3)
        else none)
      none (pyLower text).toList with
  | some n => some (max 1 (min 200 n))
  | none => none

/-- `_match_any` from router.py: some word/phrase matches with `\b`
boundaries in the lowered text. -/
def matchAny (text : String) (ws : List String) : Bool :=
  ws.any fun w => searchWordB w (pyLower text).toList

/-- `_SYNONYMS_DOMAIN` from router.py. -/
def SYNONYMS_SALES : List String :=
  ["sale", "sell", "revenue", "turnover", "customers", "invoice", "si",
   "sales invoice"]

/-- Purchase-domain keywords. -/
def SYNONYMS_PURCHASE : List String :=
  ["buy", "bought", "vendor", "supplier", "po", "purchase", "spend", "ap"]

/-- Inventory-domain keywords. -/
def SYNONYMS_INVENTORY : List String :=
  ["stock", "inventory", "warehouse", "qty", "available"]

/-- `_detect_domain` from router.py: purchase, then inventory, then
sales keywords; sales is the default. -/
def detectDomain (text : String) : String :=
  if matchAny text SYNONYMS_PURCHASE then "purchase"
  else if matchAny text SYNONYMS_INVENTORY then "inventory"
  else if matchAny text SYNONYMS_SALES then "sales"
  else "sales"

/-- `_SYNONYMS_DIM` from router.py, in dict insertion order. -/
def SYNONYMS_DIM : List (String × List String) :=
  [("month", ["month", "monthly"]),
   ("customer", ["customer", "customers", "party"]),
   ("item", ["item", "sku", "product"]),
   ("region", ["region", "territory", "country", "state"]),
   ("supplier", ["supplier", "vendor"])]

/-- The loop body of `_detect_dimension`: first matching dimension,
with supplier honored only for the purchase domain. -/
def dimLoop (text domain : String) : List (String × List String) → Option String
  | [] => none
  | (dim, alts) :: rest =>
    if matchAny text alts then
      if dim = "supplier" ∧ domain = "purchase" then some "supplier"
      else if dim = "supplier" then dimLoop text domain rest
      else some dim
    else dimLoop text domain rest

/-- `_detect_dimension` from router.py, with its per-domain defaults. -/
def detectDimension (text domain : String) : String :=
  match dimLoop text domain SYNONYMS_DIM with
  | some d => d
  | none =>
    if domain = "sales" then "customer"
    else if domain = "purchase" then "supplier"
    else "month"

/-- `_is_docs_question` from router.py:
`re.match(r"^\s*(how|what|why|when|where|explain|guide|docs?)\b", ...)`
on the stripped, lowered text. -/
def isDocsQuestion (text : String) : Bool :=
  let l := ((pyLower (pyStrip text)).toList).dropWhile pyIsSpace
  ["how", "what", "why", "when", "where", "explain", "guide", "docs", "doc"].any
    fun w => startsWithL w.toList l && bndAfter (l.drop w.toList.length)

/-- `re.search(r"\brun\s+report\b", ...)`. -/
def searchRunReport (l : List Char) : Bool :=
  scanB (lit "run" (wsPlus (lit "report" bndAfter))) none l

/-- The `group_ui` mapping of the run-report branch of `route`. -/
def groupUi (dim : String) : String :=
  if dim = "month" then "Month"
  else if dim = "customer" then "Customer"
  else if dim = "item" then "Item Code"
  else if dim = "region" then "Territory"
  else if dim = "supplier" then "Supplier"
  else "Month"

/-- `route` from router.py: docs questions go to RAG; explicit
"run report" phrasing maps to a named analytics report; then
inventory, purchase and (default) sales aggregation requests. -/
def route (today : Date) (query : String) : Json :=
  let q := pyStrip query
  if isDocsQuestion q then
    Json.obj [("intent", Json.str "doc_help"), ("action", Json.str "rag"),
      ("query", Json.str q)]
  else
    let domain := detectDomain q
    let dr := parseDateRange today q
    let top_n := detectTopN q
    let dim := detectDimension q domain
    if searchRunReport (pyLower q).toList then
      let report_name := if domain = "sales" then "Sales Analytics"
        else "Purchase Analytics"
      Json.obj
        [("intent", Json.str "reporting"), ("action", Json.str "run_report"),
         ("report_name", Json.str report_name),
         ("filters", Json.obj
            [("from_date", Json.str dr.1), ("to_date", Json.str dr.2.1),
             ("group_by", Json.str (groupUi dim))])]
    else if domain = "inventory" then
      Json.obj
        [("intent", Json.str "analytics"),
         ("action", Json.str "inventory_snapshot"),
         ("args", Json.obj [("warehouse", Json.null)])]
    else if domain = "purchase" then
      Json.obj
        [("intent", Json.str "analytics"), ("action", Json.str "purchase_stats"),
         ("args", Json.obj
            [("by", Json.str dim), ("from_date", Json.str dr.1),
             ("to_date", Json.str dr.2.1),
             ("top_n", match top_n with
               | some n => Json.num n
               | none => Json.null)])]
    else
      Json.obj
        [("intent", Json.str "analytics"), ("action", Json.str "sales_stats"),
         ("args", Json.obj
            [("by", Json.str dim), ("from_date", Json.str dr.1),
             ("to_date", Json.str dr.2.1),
             ("top_n", match top_n with
               | some n => Json.num n
               | none => Json.null)])]

-- ===== router.py: executor with graceful fallbacks =====

/-- Oracles for the router executor: the frappe tool layer and the
RAG `answer_question` collaborator (called with the query value). -/
structure RouterEnv where
  reg : ToolCall → Json
  rag : Json → Json

/-- Python `str.title()` on ASCII text. -/
def pyTitleAux : Bool → List Char → List Char
  | _, [] => []
  | prevAlpha, c :: rest =>
    (if c.isAlpha then (if prevAlpha then c.toLower else c.toUpper) else c) ::
      pyTitleAux c.isAlpha rest

/-- Python `str.title()`. -/
def pyTitle (s : String) : String := (pyTitleAux false s.toList).asString

/-- `dict.pop(k)`/`pop(k, default)` key removal (first occurrence). -/
def removeKV : List (String × Json) → String → List (String × Json)
  | [], _ => []
  | (k', v') :: rest, k => if k' = k then rest else (k', v') :: removeKV rest k

/-- `float(r.get("total") or 0)` at integer precision (the router's
sort key; fractional string totals are outside the claims). -/
def totalKey (x : Json) : Except Unit Int := do
  let g ← (match x with
    | Json.obj kvs => Except.ok (lookupKV kvs "total")
    | _ => Except.error ())
  let v := match g with
    | some w => if w.truthy then w else Json.num 0
    | none => Json.num 0
  match v with
  | Json.num n => Except.ok n
  | Json.bool b => Except.ok (if b then 1 else 0)
  | Json.str s =>
    match s.toInt? with
    | some n => Except.ok n
    | none => Except.error ()
  | _ => Except.error ()

/-- Stable descending insertion (Python `sorted(..., reverse=True)` is
stable: a later element goes after earlier elements of equal key). -/
def insertDescBy : Int × Json → List (Int × Json) → List (Int × Json)
  | x, [] => [x]
  | x, y :: ys => if y.1 < x.1 then x :: y :: ys else y :: insertDescBy x ys

/-- Sort keyed rows by key, descending, stably. -/
def sortRowsDesc (keyed : List (Int × Json)) : List Json :=
  (keyed.foldl (fun acc x => insertDescBy x acc) []).map fun p => p.2

/-- Python `xs[:n]` for an int `n` (negative counts drop from the end). -/
def pySliceNum (xs : List Json) (n : Int) : List Json :=
  if 0 ≤ n then xs.take n.toNat
  else xs.take (xs.length - (-n).toNat)

/-- The `try:` top-N block of `execute_routed`: sort rows by total
descending and keep the first `top_n`; any failure (non-list rows,
non-dict elements, unparseable totals, non-int `top_n`) is swallowed
by the `except: pass` and leaves the rows unchanged (`none`). -/
def tryTopN (rows topv : Json) : Option (List Json) :=
  match rows, topv with
  | Json.arr xs, Json.num n =>
    match xs.mapM (fun x => (totalKey x).toOption.map fun k => (k, x)) with
    | some keyed => some (pySliceNum (sortRowsDesc keyed) n)
    | none => none
  | _, _ => none

/-- The RAG-backed result shape used by the `rag` and fallback arms of
`execute_routed` (they differ only in the title). -/
def ragBranch (env : RouterEnv) (qv : Json) (title : String) :
    Except Unit Json × List ToolCall :=
  let c : ToolCall := ⟨"answer_question", [("question", qv), ("top_k", Json.num 6)], none⟩
  let ans := env.rag qv
  match ans with
  | Json.obj kvs =>
    let av := match lookupKV kvs "answer" with
      | some v => if v.truthy then v else Json.str ""
      | none => Json.str ""
    (Except.ok (Json.obj
      [("title", Json.str title), ("columns", Json.arr [Json.str "answer"]),
       ("rows", Json.arr [Json.arr [av]]), ("raw", ans)]), [c])
  | _ => (Except.error (), [c])

/-- The inventory arm of `execute_routed`. -/
def inventoryBranch (env : RouterEnv) (argsv : Json) :
    Except Unit Json × List ToolCall :=
  match argsv with
  | Json.obj aks =>
    let wh := (lookupKV aks "warehouse").getD Json.null
    let c : ToolCall := ⟨"get_inventory_snapshot", [("warehouse", wh)], none⟩
    let snap := env.reg c
    (match snap with
     | Json.obj sk =>
       (Except.ok (Json.obj
          [("title", Json.str "Inventory Snapshot"),
           ("columns", Json.arr [Json.str "Warehouse", Json.str "Item", Json.str "Qty"]),
           ("rows", (lookupKV sk "rows").getD (Json.arr [])), ("raw", snap)]), [c])
     | _ => (Except.error (), [c]))
  | _ => (Except.error (), [])

/-- Tail of the stats arm after the rows are settled: optional top-N
sort, then `setdefault` of the title (whose f-string evaluates
`dim.title()`, raising on a non-string dim) and the group_by. -/
def statsFinish (isSales : Bool) (dimv topv : Json)
    (dkvs : List (String × Json)) (rows : Json) (calls : List ToolCall) :
    Except Unit Json × List ToolCall :=
  let dkvs1 := if rows.truthy && topv.truthy then
      match tryTopN rows topv with
      | some newRows => setKV dkvs "rows" (Json.arr newRows)
      | none => dkvs
    else dkvs
  match dimv with
  | Json.str ds =>
    let title := (if isSales then "Sales" else "Purchases") ++ " by " ++ pyTitle ds
    (Except.ok (Json.obj (setdefaultKV (setdefaultKV dkvs1 "title" (Json.str title))
        "group_by" dimv)), calls)
  | _ => (Except.error (), calls)

/-- The sales/purchase aggregation arm of `execute_routed`: call the
stats tool, widen once to a 3-year window ending at the same end date
when no rows came back, then finish. -/
def statsBranch (env : RouterEnv) (isSales : Bool) (argsv : Json) :
    Except Unit Json × List ToolCall :=
  match argsv with
  | Json.obj aks =>
    match lookupKV aks "by" with
    | none => (Except.error (), [])
    | some dimv =>
      let aks1 := removeKV aks "by"
      let topv := (lookupKV aks1 "top_n").getD Json.null
      let aks2 := removeKV aks1 "top_n"
      let name := if isSales then "get_sales_stats" else "get_purchase_stats"
      let c1 : ToolCall := ⟨name, ("by", dimv) :: aks2, none⟩
      let data1 := env.reg c1
      (match data1 with
       | Json.obj dk1 =>
         let rows1 := (lookupKV dk1 "rows").getD (Json.arr [])
         if rows1.truthy then statsFinish isSales dimv topv dk1 rows1 [c1]
         else
           (match lookupKV aks2 "from_date", lookupKV aks2 "to_date" with
            | some _, some tv =>
              (match tv with
               | Json.str ts =>
                 (match parseIsoDate ts with
                  | some tdt =>
                    let f2 := (dateSubDays tdt (365 * 3)).iso
                    let c2 : ToolCall :=
                      ⟨name, [("by", dimv), ("from_date", Json.str f2),
                        ("to_date", tv)], none⟩
                    let data2 := env.reg c2
                    (match data2 with
                     | Json.obj dk2 =>
                       let rows2 := (lookupKV dk2 "rows").getD (Json.arr [])
                       statsFinish isSales dimv topv dk2 rows2 [c1, c2]
                     | _ => (Except.error (), [c1, c2]))
                  | none => (Except.error (), [c1]))
               | _ => (Except.error (), [c1]))
            | _, _ => (Except.error (), [c1]))
       | _ => (Except.error (), [c1]))
  | _ => (Except.error (), [])

/-- Python `len(v)` for sized values. -/
def pyLen : Json → Except Unit Nat
  | .arr xs => Except.ok xs.length
  | .str s => Except.ok s.length
  | .obj kvs => Except.ok kvs.length
  | _ => Except.error ()

/-- Python `v[i]` for a non-negative int index. -/
def pyIndexNat : Json → Nat → Except Unit Json
  | .arr xs, i =>
    (match xs.get? i with
     | some v => Except.ok v
     | none => Except.error ())
  | .str s, i =>
    (match s.toList.get? i with
     | some c => Except.ok (Json.str c.toString)
     | none => Except.error ())
  | _, _ => Except.error ()

/-- First column index whose (lowered) name is in `keys`. -/
def findIdxIn (cols keys : List String) : Option Nat :=
  cols.findIdx? fun c => keys.contains c

/-- Label-like column names recognized by the run-report shaper. -/
def labelCols : List String :=
  ["customer", "supplier", "item", "month", "territory", "region", "label", "name"]

/-- Total-like column names recognized by the run-report shaper. -/
def totalCols : List String :=
  ["grand total", "total", "amount", "value", "net total"]

/-- The list comprehension shaping report rows into label/total dicts,
keeping rows longer than both chosen indices. -/
def shapeRows (lab ni mx : Nat) : List Json → Except Unit (List Json)
  | [] => Except.ok []
  | e :: rest => do
    let len ← pyLen e
    if mx < len then do
      let lv ← pyIndexNat e lab
      let nv ← pyIndexNat e ni
      let rest' ← shapeRows lab ni mx rest
      Except.ok (Json.obj [("label", lv), ("total", nv)] :: rest')
    else shapeRows lab ni mx rest

/-- `r.get(k1, \x7b\x7d).get(k2)` used for the filters meta fields. -/
def chainGet (r : Json) (k1 k2 : String) : Except Unit Json :=
  match r with
  | Json.obj rkvs =>
    let v := (lookupKV rkvs k1).getD (Json.obj [])
    (match v with
     | Json.obj ks => Except.ok ((lookupKV ks k2).getD Json.null)
     | _ => Except.error ())
  | _ => Except.error ()

/-- The pretty-view reshaping of the run-report arm (router.py lines
195-203): lower the column names, locate a label and a total column,
and shape the 2D rows; fall back to the raw report payload when the
shapes do not line up. -/
def reportShape (rkvs : List (String × Json)) (rep : Json)
    (repk : List (String × Json)) : Except Unit Json := do
  let colsRaw := (lookupKV repk "columns").getD (Json.arr [])
  let colsI ← pyIter colsRaw
  let cols ← colsI.mapM fun cv =>
    match cv with
    | Json.str s => Except.ok (pyLower s)
    | _ => Except.error ()
  let rowsv := (lookupKV repk "rows").getD (Json.arr [])
  match rowsv with
  | Json.arr xs =>
    if !cols.isEmpty && (match xs.head? with
        | some (Json.arr _) => true
        | _ => false) then
      let lab := (findIdxIn cols labelCols).getD 0
      match findIdxIn cols totalCols with
      | some ni => do
        let shaped ← shapeRows lab ni (max lab ni) xs
        let gb ← (match cols.get? lab with
          | some s => Except.ok s
          | none => Except.error ())
        let fdv ← chainGet (Json.obj rkvs) "filters" "from_date"
        let tdv ← chainGet (Json.obj rkvs) "filters" "to_date"
        Except.ok (Json.obj
          [("title", (lookupKV repk "title").getD Json.null),
           ("group_by", Json.str gb), ("from_date", fdv), ("to_date", tdv),
           ("rows", Json.arr shaped), ("raw", rep)])
      | none => Except.ok rep
    else Except.ok rep
  | Json.str _ => Except.ok rep
  | other =>
    if !cols.isEmpty && other.truthy then Except.error ()
    else Except.ok rep

/-- The run-report arm of `execute_routed`. -/
def runReportBranch (env : RouterEnv) (rkvs : List (String × Json)) :
    Except Unit Json × List ToolCall :=
  match lookupKV rkvs "report_name" with
  | none => (Except.error (), [])
  | some rnv =>
    let filtv := match lookupKV rkvs "filters" with
      | some v => if v.truthy then v else Json.obj []
      | none => Json.obj []
    let c : ToolCall := ⟨"run_report", [("report_name", rnv), ("filters", filtv)], none⟩
    let rep := env.reg c
    (match rep with
     | Json.obj repk =>
       (match reportShape rkvs rep repk with
        | Except.ok out => (Except.ok out, [c])
        | Except.error _ => (Except.error (), [c]))
     | _ => (Except.error (), [c]))

/-- `execute_routed` from router.py: dispatch on the routing decision's
action; every arm invokes only read-only collaborators. -/
def execute_routed (env : RouterEnv) (r : Json) : Except Unit Json × List ToolCall :=
  match r with
  | Json.obj rkvs =>
    let action := lookupKV rkvs "action"
    if optStr action = some "rag" then
      (match lookupKV rkvs "query" with
       | some qv => ragBranch env qv "Documentation Answer"
       | none => (Except.error (), []))
    else if optStr action = some "inventory_snapshot" then
      (match lookupKV rkvs "args" with
       | some av => inventoryBranch env av
       | none => (Except.error (), []))
    else if optStr action = some "sales_stats" then
      (match lookupKV rkvs "args" with
       | some av => statsBranch env true av
       | none => (Except.error (), []))
    else if optStr action = some "purchase_stats" then
      (match lookupKV rkvs "args" with
       | some av => statsBranch env false av
       | none => (Except.error (), []))
    else if optStr action = some "run_report" then
      runReportBranch env rkvs
    else
      ragBranch env ((lookupKV rkvs "query").getD (Json.str "")) "Answer"
  | _ => (Except.error (), [])

/-- The `from_date`/`to_date` annotation value of `route_and_execute`:
the routing decision's args when truthy, else its filters. -/
def metaGet (r : Json) (key : String) : Except Unit Json :=
  match r with
  | Json.obj rkvs =>
    let argsv := (lookupKV rkvs "args").getD Json.null
    if argsv.truthy then
      (match argsv with
       | Json.obj aks => Except.ok ((lookupKV aks key).getD Json.null)
       | _ => Except.error ())
    else
      let fv := (lookupKV rkvs "filters").getD (Json.obj [])
      (match fv with
       | Json.obj fks => Except.ok ((lookupKV fks key).getD Json.null)
       | _ => Except.error ())
  | _ => Except.error ()

/-- The `setdefault` meta annotation of `route_and_execute`. -/
def annotateMeta (r : Json) (okvs : List (String × Json)) :
    Except Unit (List (String × Json)) := do
  let fdv ← metaGet r "from_date"
  let k1 := setdefaultKV okvs "from_date" fdv
  let tdv ← metaGet r "to_date"
  let k2 := setdefaultKV k1 "to_date" tdv
  let gb1 ← chainGet r "args" "by"
  let gb ← (if gb1.truthy then Except.ok gb1 else chainGet r "filters" "group_by")
  if gb.truthy then Except.ok (setdefaultKV k2 "group_by" gb)
  else Except.ok k2

/-- `route_and_execute` from router.py. -/
def route_and_execute (env : RouterEnv) (today : Date) (query : String) :
    Except Unit Json × List ToolCall :=
  let r := route today query
  let er := execute_routed env r
  match er.1 with
  | Except.error e => (Except.error e, er.2)
  | Except.ok out =>
    match out with
    | Json.obj okvs =>
      (match annotateMeta r okvs with
       | Except.ok okvs' => (Except.ok (Json.obj okvs'), er.2)
       | Except.error e => (Except.error e, er.2))
    | other => (Except.ok other, er.2)

/-- The fast-path test of `smart_execute`: the routed payload is a
dict and carries truthy `rows` or a truthy `raw` answer. -/
def routedFast (routed : Json) : Bool :=
  match routed with
  | Json.obj _ => ((routed.get "rows").getD Json.null).truthy ||
      ((routed.get "raw").getD Json.null).truthy
  | _ => false

/-- Observable outcome of `smart_execute`. -/
structure SmartOut where
  result : Except ExecErr Json
  calls : List ToolCall
  llmCalled : Bool

/-- `smart_execute` from agent.py: run the deterministic router first
and return immediately when it produced rows or a raw answer (the fast
path, which never consults the planner); otherwise fall back to the
full `execute` flow. -/
def smart_execute (today : Date) (corrId idemTok : String)
    (reg : ToolCall → Json) (rag : Json → Json)
    (llmOutcome : Except LLMErr (Option Json)) (command user : String)
    (dry_run : Bool) (confirm_token : Option String) : SmartOut :=
  let re := route_and_execute ⟨reg, rag⟩ today command
  match re.1 with
  | Except.error _ => ⟨Except.error ExecErr.runtime, re.2, false⟩
  | Except.ok routed =>
    if routedFast routed then
      ⟨Except.ok (Json.obj
        [("status", Json.str "completed"),
         ("plan", Json.obj
            [("intent", Json.str "auto"), ("steps", Json.arr []),
             ("risks", Json.arr []), ("confirm_required", Json.bool false)]),
         ("results", Json.arr [Json.obj
            [("step", Json.num 1), ("tool", Json.str "router"),
             ("result", routed)]])]), re.2, false⟩
    else
      let ex := execute today corrId idemTok reg llmOutcome command user dry_run confirm_token
      ⟨ex.result, re.2 ++ ex.calls, ex.llmCalled⟩

/-- A step surviving normalization: a dict whose tool field is truthy. -/
def goodStep (s : Json) : Bool :=
  match s with
  | Json.obj kvs => ((lookupKV kvs "tool").getD Json.null).truthy
  | _ => false

/-- Spec-side reading of claim C3 (the dry-run contract), to be
compared with the source-derived step loop: a read-only step is
dispatched once (its kwargs, no token) and its payload recorded as the
outcome (run_sql and get_inventory_snapshot payloads arrive wrapped in
a rows dict); every other step is recorded as the skipped outcome
with step index, tool, dry_run true and args, with no call. -/
def specDryPair (reg : ToolCall → Json) (idx : Nat) (s : Json) :
    Json × List ToolCall :=
  let toolv := s.get "tool"
  let args := match s.get "args" with
    | some v => if v.truthy then v else Json.obj []
    | none => Json.obj []
  match optStr toolv with
  | some t =>
    if READ_ONLY_TOOLS.contains t then
      let aks := match args with
        | Json.obj aks => aks
        | _ => []
      let c : ToolCall := ⟨t, aks, none⟩
      (Json.obj [("step", Json.num idx), ("tool", Json.str t),
        ("result", if t = "run_sql" || t = "get_inventory_snapshot"
          then Json.obj [("rows", reg c)] else reg c)], [c])
    else
      (Json.obj [("step", Json.num idx), ("tool", toolv.getD Json.null),
        ("dry_run", Json.bool true), ("args", args)], [])
  | none =>
    (Json.obj [("step", Json.num idx), ("tool", toolv.getD Json.null),
      ("dry_run", Json.bool true), ("args", args)], [])

/-- Spec-side dry-run outcomes and calls for a step list, 1-based. -/
def specDryAll (reg : ToolCall → Json) : Nat → List Json → List Json × List ToolCall
  | _, [] => ([], [])
  | idx, s :: rest =>
    let p := specDryPair reg idx s
    let r := specDryAll reg (idx + 1) rest
    (p.1 :: r.1, p.2 ++ r.2)

/-- A step the dry-run claim covers: a dict whose tool value is
hashable (a list or dict tool makes the set-membership test itself
raise) and whose args value, when the step is read-only and will be
dispatched, is a mapping, absent, or falsy — a truthy non-mapping args
would make the call-site unpacking raise instead of dispatching. -/
def dryWFStep (s : Json) : Bool :=
  match s with
  | Json.obj kvs =>
    match notInReadOnly (lookupKV kvs "tool") with
    | Except.error _ => false
    | Except.ok true => true
    | Except.ok false =>
      match lookupKV kvs "args" with
      | some v => !v.truthy || (match v with
          | Json.obj _ => true
          | _ => false)
      | none => true
  | _ => false

-- ===== Lemma layer =====

/-- Assigning a key makes it look up to the assigned value. -/
theorem lookupKV_setKV (kvs : List (String × Json)) (k : String) (v : Json) :
    lookupKV (setKV kvs k v) k = some v := by
  induction kvs with
  | nil => simp [setKV, lookupKV]
  | cons kv rest ih =>
    obtain ⟨k', v'⟩ := kv
    by_cases h : k' = k
    · subst h; simp [setKV, lookupKV]
    · simp [setKV, h, lookupKV, ih]

/-- Normalizing a kept step yields a dict with the same truthy tool. -/
theorem normalizeStep_good (f t : String) (s s' : Json)
    (hk : stepKeep s = true) (hn : normalizeStep f t s = Except.ok s') :
    goodStep s' = true := by
  cases s with
  | obj kvs =>
    simp only [normalizeStep, bind, Except.bind] at hn
    have htool : ((lookupKV kvs "tool").getD Json.null).truthy = true := by
      simp only [stepKeep] at hk
      cases hl : lookupKV kvs "tool" with
      | none => rw [hl] at hk; exact absurd hk (by simp)
      | some v => rw [hl] at hk; simpa [hl] using hk
    repeat' split at hn
    all_goals
      first
        | (simp only [Except.ok.injEq] at hn
           subst hn
           simp [goodStep, lookupKV, htool])
        | exact absurd hn (by simp)
  | null => exact absurd hk (by simp [stepKeep])
  | bool b => exact absurd hk (by simp [stepKeep])
  | num n => exact absurd hk (by simp [stepKeep])
  | str s => exact absurd hk (by simp [stepKeep])
  | arr xs => exact absurd hk (by simp [stepKeep])

/-- Normalizing a list of kept steps yields only good steps. -/
theorem normalizeStepsL_good (f t : String) : ∀ (l out : List Json),
    (∀ s ∈ l, stepKeep s = true) → normalizeStepsL f t l = Except.ok out →
    ∀ s' ∈ out, goodStep s' = true := by
  intro l
  induction l with
  | nil =>
    intro out _ hn s' hm
    simp only [normalizeStepsL, Except.ok.injEq] at hn
    subst hn
    simp at hm
  | cons s rest ih =>
    intro out hk hn s' hm
    simp only [normalizeStepsL, bind, Except.bind] at hn
    cases h1 : normalizeStep f t s with
    | error e => rw [h1] at hn; exact absurd hn (by simp)
    | ok s1 =>
      rw [h1] at hn
      cases h2 : normalizeStepsL f t rest with
      | error e => rw [h2] at hn; exact absurd hn (by simp)
      | ok rest' =>
        rw [h2] at hn
        simp only [Except.ok.injEq] at hn
        subst hn
        rcases List.mem_cons.mp hm with h | h
        · subst h
          exact normalizeStep_good f t s s' (hk s (by simp)) h1
        · exact ih rest' (fun x hx => hk x (by simp [hx])) h2 s' h

/-- A successful try-block yields a plan whose steps are the
normalized kept steps: a real list of good steps. -/
theorem tryPlan_ok_good (today : Date) (parsed : Option Json) (p : Json)
    (ht : tryPlan today parsed = Except.ok p) :
    ∃ ss, p.get "steps" = some (Json.arr ss) ∧ ∀ s ∈ ss, goodStep s = true := by
  simp only [tryPlan, bind, Except.bind] at ht
  repeat' split at ht
  all_goals try exact Except.noConfusion ht
  rename_i kvs hparsed x2 sv hsv x1 raw hiter x0 normed hns
  simp only [Except.ok.injEq] at ht
  subst ht
  refine ⟨normed, by simp [Json.get, lookupKV_setKV], ?_⟩
  exact normalizeStepsL_good _ _ _ _ (fun s hs => (List.mem_filter.mp hs).2) hns

/-- Every plan `classify_and_plan` yields has a genuine list of steps,
each a dict with a truthy tool field. -/
theorem classify_ok_good (today : Date) (command : String)
    (o : Except LLMErr (Option Json)) (plan : Json) (b : Bool)
    (h : classify_and_plan today command o = (Except.ok plan, b)) :
    ∃ ss, plan.get "steps" = some (Json.arr ss) ∧ ∀ s ∈ ss, goodStep s = true := by
  cases hfp : fastpath today command with
  | some p =>
    simp only [classify_and_plan, hfp, Prod.mk.injEq, Except.ok.injEq] at h
    obtain ⟨hp, -⟩ := h
    subst hp
    simp only [fastpath] at hfp
    split_ifs at hfp <;>
      first
        | (simp only [Option.some.injEq] at hfp
           subst hfp
           refine ⟨_, rfl, ?_⟩
           intro s hs
           simp only [List.mem_singleton] at hs
           subst hs
           rfl)
  | none =>
    cases o with
    | error e => simp [classify_and_plan, hfp] at h
    | ok parsed =>
      cases ht : tryPlan today parsed with
      | ok p =>
        simp only [classify_and_plan, hfp, ht, Prod.mk.injEq, Except.ok.injEq] at h
        obtain ⟨hp, -⟩ := h
        subst hp
        exact tryPlan_ok_good today parsed _ ht
      | error e =>
        simp only [classify_and_plan, hfp, ht, Prod.mk.injEq, Except.ok.injEq] at h
        obtain ⟨hp, -⟩ := h
        subst hp
        refine ⟨_, rfl, ?_⟩
        intro s hs
        simp only [fallbackPlan, List.mem_singleton] at hs
        subst hs
        rfl

/-- The confirmation gate of `execute`: a plan needing confirmation,
with no (truthy) token and not a dry run, short-circuits to an
`awaiting_confirmation` envelope with no tool calls. -/
theorem execute_awaits (today : Date) (corrId idemTok : String)
    (reg : ToolCall → Json) (o : Except LLMErr (Option Json))
    (command user : String) (tok : Option String) (plan : Json) (b : Bool)
    (hplan : classify_and_plan today command o = (Except.ok plan, b))
    (hconf : confirmNeeded plan = Except.ok true)
    (htok : tokenFalsy tok = true) :
    execute today corrId idemTok reg o command user false tok =
      ⟨Except.ok (Json.obj
        [("status", Json.str "awaiting_confirmation"),
         ("correlation_id", Json.str corrId), ("plan", plan)]), [], b⟩ := by
  obtain ⟨ss, hss, -⟩ := classify_ok_good today command o plan b hplan
  simp only [execute, hplan, hss, Option.getD_some, pySlice8, hconf, htok,
    Bool.true_and, Bool.and_self, Bool.not_false, Bool.and_true, if_true]

-- ===== C1 =====

/-- C1: when a command's plan requires confirmation (`confirm_required`
truthy or intent `structural_change`, i.e. `confirmNeeded`), no
confirmation token is supplied (`None` or empty), and `dry_run` is
false, `execute` returns `status = awaiting_confirmation` carrying the
plan and the correlation id, and its tool-call trace is empty. -/
theorem c1_awaiting_confirmation_blocks_tools (today : Date)
    (corrId idemTok : String) (reg : ToolCall → Json)
    (o : Except LLMErr (Option Json)) (command user : String)
    (tok : Option String) (plan : Json) (b : Bool)
    (hplan : classify_and_plan today command o = (Except.ok plan, b))
    (hconf : confirmNeeded plan = Except.ok true)
    (htok : tokenFalsy tok = true) :
    execute today corrId idemTok reg o command user false tok =
      ⟨Except.ok (Json.obj
        [("status", Json.str "awaiting_confirmation"),
         ("correlation_id", Json.str corrId), ("plan", plan)]), [], b⟩ :=
  execute_awaits today corrId idemTok reg o command user tok plan b hplan hconf htok

/-- C1 witness: a parsed plan with `confirm_required = true` and no
token makes `execute` stop with the awaiting envelope and no calls. -/
theorem c1_witness :
    execute ⟨2024, 1, 15⟩ "CORR" "IDEM" (fun _ => Json.null)
        (Except.ok (some (Json.obj
          [("steps", Json.arr []), ("confirm_required", Json.bool true)])))
        "please reorganize the ledger" "u" false none =
      ⟨Except.ok (Json.obj
        [("status", Json.str "awaiting_confirmation"),
         ("correlation_id", Json.str "CORR"),
         ("plan", Json.obj
            [("steps", Json.arr []), ("confirm_required", Json.bool true)])]),
       [], true⟩ :=
  c1_awaiting_confirmation_blocks_tools ⟨2024, 1, 15⟩ "CORR" "IDEM"
    (fun _ => Json.null) _ "please reorganize the ledger" "u" none _ true
    rfl rfl rfl

-- ===== C4 =====

/-- C4: a plan whose intent is `structural_change` is always
confirmation-gated: `confirmNeeded` is true no matter what
`confirm_required` the upstream classifier produced, so `execute`
(without a token, not dry run) stops at `awaiting_confirmation`. -/
theorem c4_structural_change_forced (plan : Json)
    (hint : plan.get "intent" = some (Json.str "structural_change")) :
    confirmNeeded plan = Except.ok true ∧
    ∀ (today : Date) (corrId idemTok : String) (reg : ToolCall → Json)
      (o : Except LLMErr (Option Json)) (command user : String)
      (tok : Option String) (b : Bool),
      classify_and_plan today command o = (Except.ok plan, b) →
      tokenFalsy tok = true →
      execute today corrId idemTok reg o command user false tok =
        ⟨Except.ok (Json.obj
          [("status", Json.str "awaiting_confirmation"),
           ("correlation_id", Json.str corrId), ("plan", plan)]), [], b⟩ := by
  have hconf : confirmNeeded plan = Except.ok true := by
    simp [confirmNeeded, hint]
  refine ⟨hconf, ?_⟩
  intro today corrId idemTok reg o command user tok b hplan htok
  exact execute_awaits today corrId idemTok reg o command user tok plan b hplan hconf htok

/-- C4 witness: a structural-change plan with upstream
`confirm_required = false` is nonetheless gated. -/
theorem c4_witness :
    confirmNeeded (Json.obj
      [("intent", Json.str "structural_change"), ("steps", Json.arr []),
       ("confirm_required", Json.bool false)]) = Except.ok true ∧
    execute ⟨2024, 1, 15⟩ "CORR" "IDEM" (fun _ => Json.null)
        (Except.ok (some (Json.obj
          [("intent", Json.str "structural_change"), ("steps", Json.arr []),
           ("confirm_required", Json.bool false)])))
        "restructure the ledger doctype" "u" false none =
      ⟨Except.ok (Json.obj
        [("status", Json.str "awaiting_confirmation"),
         ("correlation_id", Json.str "CORR"),
         ("plan", Json.obj
            [("intent", Json.str "structural_change"), ("steps", Json.arr []),
             ("confirm_required", Json.bool false)])]), [], true⟩ := by
  have h := c4_structural_change_forced (Json.obj
    [("intent", Json.str "structural_change"), ("steps", Json.arr []),
     ("confirm_required", Json.bool false)]) rfl
  exact ⟨h.1, h.2 ⟨2024, 1, 15⟩ "CORR" "IDEM" (fun _ => Json.null) _
    "restructure the ledger doctype" "u" none true rfl rfl⟩

-- ===== C2 =====

/-- C2 counterexample: with no fast-path match and a completion-client
failure (retry budget exhausted), `classify_and_plan` propagates the
error instead of returning the fallback plan — the claim's
"backend failure ⇒ fallback, never an error" is false for this input. -/
theorem c2_counterexample :
    classify_and_plan ⟨2024, 1, 15⟩ "create a workflow for approvals"
        (Except.error LLMErr.connErr) =
      (Except.error LLMErr.connErr, true) ∧
    (Except.error LLMErr.connErr : Except LLMErr Json) ≠
      Except.ok (fallbackPlan ⟨2024, 1, 15⟩) :=
  ⟨rfl, fun h => Except.noConfusion h⟩

/-- C2 (amended): when the fast path misses, a failure to parse or
shape-check the completion output (anything that makes the try-block
raise) yields the fixed fallback plan — a single `get_sales_stats`
step with `by=month` over the trailing 12 months, `confirm_required`
false, risk `planner_fallback` — with no error surfaced; but an
exception from the completion client itself (circuit open, or retries
exhausted) is raised before the try-block and propagates to the
caller. -/
theorem c2_parse_failures_fall_back (today : Date) (command : String)
    (hfp : fastpath today command = none) :
    (∀ parsed, tryPlan today parsed = Except.error () →
      classify_and_plan today command (Except.ok parsed) =
        (Except.ok (fallbackPlan today), true)) ∧
    (∀ e, classify_and_plan today command (Except.error e) =
      (Except.error e, true)) ∧
    (fallbackPlan today).get "steps" = some (Json.arr [Json.obj
      [("tool", Json.str "get_sales_stats"),
       ("args", Json.obj
          [("by", Json.str "month"),
           ("from_date", Json.str (lastNMonthRange today 12).1),
           ("to_date", Json.str (lastNMonthRange today 12).2)])]]) ∧
    (fallbackPlan today).get "confirm_required" = some (Json.bool false) ∧
    (fallbackPlan today).get "risks" =
      some (Json.arr [Json.str "planner_fallback"]) := by
  refine ⟨?_, ?_, rfl, rfl, rfl⟩
  · intro parsed hp
    simp [classify_and_plan, hfp, hp]
  · intro e
    simp [classify_and_plan, hfp]

/-- C2 witness: a non-JSON reply (`json.loads` raises) falls back; a
client error propagates. -/
theorem c2_witness :
    classify_and_plan ⟨2024, 1, 15⟩ "create a workflow" (Except.ok none) =
      (Except.ok (fallbackPlan ⟨2024, 1, 15⟩), true) ∧
    classify_and_plan ⟨2024, 1, 15⟩ "create a workflow"
        (Except.error LLMErr.circuitOpen) =
      (Except.error LLMErr.circuitOpen, true) :=
  ⟨(c2_parse_failures_fall_back ⟨2024, 1, 15⟩ "create a workflow" rfl).1 none rfl,
   (c2_parse_failures_fall_back ⟨2024, 1, 15⟩ "create a workflow" rfl).2.1
     LLMErr.circuitOpen⟩

-- ===== C9 =====

/-- C9 counterexample: "top customers" matches a fast-path phrasing,
but the plan's single step aggregates by customer, not by month as the
claim states for every fast-path command. -/
theorem c9_counterexample :
    classify_and_plan ⟨2024, 1, 15⟩ "top customers" (Except.error LLMErr.connErr) =
      (Except.ok (Json.obj
        [("intent", Json.str "analytics"),
         ("steps", Json.arr [Json.obj
            [("tool", Json.str "get_sales_stats"),
             ("args", Json.obj
                [("by", Json.str "customer"),
                 ("from_date", Json.str "2023-02-01"),
                 ("to_date", Json.str "2024-01-15")])]]),
         ("confirm_required", Json.bool false),
         ("risks", Json.arr [])]), false) ∧
    (Json.obj
      [("by", Json.str "customer"), ("from_date", Json.str "2023-02-01"),
       ("to_date", Json.str "2024-01-15")]).get "by" =
      some (Json.str "customer") ∧
    Json.str "customer" ≠ Json.str "month" :=
  ⟨rfl, rfl, fun h => absurd (congrArg pyStr h) (by decide)⟩

/-- C9 (amended): each fast-path phrasing yields its hard-coded plan
with a single `get_sales_stats` step over the trailing 12 months
ending today and `confirm_required = false`, without consulting the
completion client; the dimension is `month` for the best-selling-month
phrasing, and `customer`/`item` for the top-customers and
top-items/best-sellers phrasings. -/
theorem c9_fastpath_plans (today : Date) (command : String)
    (o : Except LLMErr (Option Json)) :
    ((fastRegex1 (pyStrip (pyLower command)).toList ||
        containsL "best selling month".toList (pyStrip (pyLower command)).toList) = true →
      classify_and_plan today command o =
        (Except.ok (Json.obj
          [("intent", Json.str "analytics"),
           ("steps", Json.arr [Json.obj
              [("tool", Json.str "get_sales_stats"),
               ("args", Json.obj
                  [("by", Json.str "month"),
                   ("from_date", Json.str (lastNMonthRange today 12).1),
                   ("to_date", Json.str (lastNMonthRange today 12).2)])]]),
           ("confirm_required", Json.bool false),
           ("risks", Json.arr
              [Json.str "Assumes last 12 months; adjust if needed."])]), false)) ∧
    ((fastRegex1 (pyStrip (pyLower command)).toList ||
        containsL "best selling month".toList (pyStrip (pyLower command)).toList) = false →
      containsL "top customers".toList (pyStrip (pyLower command)).toList = true →
      classify_and_plan today command o =
        (Except.ok (Json.obj
          [("intent", Json.str "analytics"),
           ("steps", Json.arr [Json.obj
              [("tool", Json.str "get_sales_stats"),
               ("args", Json.obj
                  [("by", Json.str "customer"),
                   ("from_date", Json.str (lastNMonthRange today 12).1),
                   ("to_date", Json.str (lastNMonthRange today 12).2)])]]),
           ("confirm_required", Json.bool false),
           ("risks", Json.arr [])]), false)) ∧
    ((fastRegex1 (pyStrip (pyLower command)).toList ||
        containsL "best selling month".toList (pyStrip (pyLower command)).toList) = false →
      containsL "top customers".toList (pyStrip (pyLower command)).toList = false →
      (containsL "top items".toList (pyStrip (pyLower command)).toList ||
        containsL "best sellers".toList (pyStrip (pyLower command)).toList) = true →
      classify_and_plan today command o =
        (Except.ok (Json.obj
          [("intent", Json.str "analytics"),
           ("steps", Json.arr [Json.obj
              [("tool", Json.str "get_sales_stats"),
               ("args", Json.obj
                  [("by", Json.str "item"),
                   ("from_date", Json.str (lastNMonthRange today 12).1),
                   ("to_date", Json.str (lastNMonthRange today 12).2)])]]),
           ("confirm_required", Json.bool false),
           ("risks", Json.arr [])]), false)) := by
  refine ⟨?_, ?_, ?_⟩
  · intro h1
    simp only [classify_and_plan, fastpath]
    rw [h1]
    rfl
  · intro h1 h2
    simp only [classify_and_plan, fastpath]
    rw [h1, h2]
    rfl
  · intro h1 h2 h3
    simp only [classify_and_plan, fastpath]
    rw [h1, h2, h3]
    rfl

/-- C9 witness: "What was our best selling month?" takes the month
fast path on 2024-03-15, with the window 2023-04-01..2024-03-15, and
the completion client is never invoked (an erroring client does not
affect the result). -/
theorem c9_witness :
    classify_and_plan ⟨2024, 3, 15⟩ "What was our best selling month?"
        (Except.error LLMErr.connErr) =
      (Except.ok (Json.obj
        [("intent", Json.str "analytics"),
         ("steps", Json.arr [Json.obj
            [("tool", Json.str "get_sales_stats"),
             ("args", Json.obj
                [("by", Json.str "month"),
                 ("from_date", Json.str (lastNMonthRange ⟨2024, 3, 15⟩ 12).1),
                 ("to_date", Json.str (lastNMonthRange ⟨2024, 3, 15⟩ 12).2)])]]),
         ("confirm_required", Json.bool false),
         ("risks", Json.arr
            [Json.str "Assumes last 12 months; adjust if needed."])]), false) :=
  (c9_fastpath_plans ⟨2024, 3, 15⟩ "What was our best selling month?"
    (Except.error LLMErr.connErr)).1 rfl

-- ===== C6 / C7 lemmas =====

/-- The attempt counter of the retry loop never decreases. -/
theorem completeLoop_attempts_ge (backend : Nat → BackendOutcome) :
    ∀ (rl attempt : Nat) (now : Int) (w : List Int) (calls : Nat),
      calls ≤ (completeLoop backend rl attempt now w calls).attempts := by
  intro rl
  induction rl with
  | zero =>
    intro attempt now w calls
    simp only [completeLoop]
    split
    · exact Nat.le_refl _
    · cases backend attempt <;> simp
  | succ rl ih =>
    intro attempt now w calls
    simp only [completeLoop]
    split
    · exact Nat.le_refl _
    · cases hb : backend attempt <;> simp only []
      case ok => simp
      case connErr =>
        exact Nat.le_trans (Nat.le_succ _)
          (ih (attempt + 1) (now + waitAfter attempt) _ (calls + 1))
      case rateErr =>
        exact Nat.le_trans (Nat.le_succ _)
          (ih (attempt + 1) (now + waitAfter attempt) _ (calls + 1))
      case statusErr => simp
      case otherErr => simp

/-- When the circuit check does not trip, at least one backend call is
attempted. -/
theorem completeLoop_first_attempt (backend : Nat → BackendOutcome)
    (rl attempt : Nat) (now : Int) (w : List Int) (calls : Nat)
    (hc : (checkCircuit now w).1 = false) :
    calls + 1 ≤ (completeLoop backend rl attempt now w calls).attempts := by
  cases rl with
  | zero =>
    simp only [completeLoop, hc]
    cases backend attempt <;> simp
  | succ rl =>
    simp only [completeLoop, hc]
    cases backend attempt <;>
      first
        | exact completeLoop_attempts_ge backend rl (attempt + 1)
            (now + waitAfter attempt) _ (calls + 1)
        | simp

-- ===== C6 =====

/-- C6 counterexample: at time 0 with failures at -40, -39, -38, all
three failures are inside the trailing 90-second window and the last
two are one second apart (the claim's burst condition), yet the next
call does not trip the breaker: it attempts the backend (one call). -/
theorem c6_counterexample :
    ((([-40, -39, -38] : List Int).filter fun t => (0 : Int) - t < 90).length = 3) ∧
    ((-38 : Int) - (-39) < 30) ∧
    complete (fun _ => BackendOutcome.ok (some "ok")) 0 [-40, -39, -38] =
      ⟨CompleteResult.content (some "ok"), [-40, -39, -38], 1⟩ := by
  refine ⟨by decide, by decide, by decide⟩

/-- C6 (amended): the breaker trips (before any backend call, leaving
zero attempts) iff the pruned window retains at least 3 failures from
the trailing 90 seconds and the most recent retained failure is less
than 30 seconds old relative to the call time — not "the last two
within 30 seconds of each other"; and once every recorded failure has
aged at least 90 seconds, the next call attempts the backend. -/
theorem c6_circuit_trip_and_age_out (backend : Nat → BackendOutcome)
    (now : Int) (w : List Int) :
    (3 ≤ (w.filter fun t => now - t < 90).length →
      (∃ tl, (w.filter fun t => now - t < 90).getLast? = some tl ∧ now - tl < 30) →
      complete backend now w =
        ⟨CompleteResult.circuitTripped, w.filter fun t => now - t < 90, 0⟩) ∧
    ((∀ t ∈ w, 90 ≤ now - t) → 1 ≤ (complete backend now w).attempts) := by
  constructor
  · rintro h3 ⟨tl, htl, hlt⟩
    have hc : checkCircuit now w = (true, w.filter fun t => now - t < 90) := by
      simp only [checkCircuit]
      rw [htl]
      simp [h3, hlt]
    simp only [complete, completeLoop, hc]
    simp
  · intro hall
    have hfilter : (w.filter fun t => now - t < 90) = [] := by
      rw [List.filter_eq_nil_iff]
      intro t ht
      simp only [decide_eq_true_eq]
      have := hall t ht
      omega
    have hc : (checkCircuit now w).1 = false := by
      simp [checkCircuit, hfilter]
    exact completeLoop_first_attempt backend 2 1 now w 0 hc

/-- C6 witness: a recent burst trips before any call; an aged-out
window lets the call through. -/
theorem c6_witness :
    complete (fun _ => BackendOutcome.ok (some "ok")) 100 [95, 96, 97] =
      ⟨CompleteResult.circuitTripped, [95, 96, 97], 0⟩ ∧
    1 ≤ (complete (fun _ => BackendOutcome.ok (some "ok")) 200 [95, 96, 97]).attempts :=
  ⟨(c6_circuit_trip_and_age_out (fun _ => BackendOutcome.ok (some "ok")) 100
      [95, 96, 97]).1 (by decide) ⟨97, by decide, by decide⟩,
   (c6_circuit_trip_and_age_out (fun _ => BackendOutcome.ok (some "ok")) 200
      [95, 96, 97]).2 (by decide)⟩

-- ===== C7 =====

/-- C7 counterexample: a call that exhausts its retry budget against a
connectivity-failing backend records three failures in the sliding
window (one per attempt, at times 0, 2 and 6), not one. -/
theorem c7_counterexample :
    complete (fun _ => BackendOutcome.connErr) 0 [] =
      ⟨CompleteResult.raised BackendOutcome.connErr, [0, 2, 6], 3⟩ ∧
    ([0, 2, 6] : List Int).length = 3 ∧ (3 : Nat) ≠ 1 := by
  refine ⟨by decide, by decide, by decide⟩

/-- C7 (amended): with the circuit closed, only connectivity and
rate-limit errors are retried, up to 3 total attempts with
exponential backoff bounded in [1, 10] seconds; a failure is recorded
in the sliding window on every failed attempt (so an exhausted call
records three, and even an attempt that later recovers has recorded
its failure), and also on a non-retried API status error; other
exceptions are neither retried nor recorded. -/
theorem c7_retry_and_recording (backend : Nat → BackendOutcome)
    (now : Int) (w : List Int) :
    (backend 1 = BackendOutcome.statusErr → (checkCircuit now w).1 = false →
      complete backend now w =
        ⟨CompleteResult.raised BackendOutcome.statusErr,
         (w.filter fun t => now - t < 90) ++ [now], 1⟩) ∧
    (backend 1 = BackendOutcome.otherErr → (checkCircuit now w).1 = false →
      complete backend now w =
        ⟨CompleteResult.raised BackendOutcome.otherErr,
         w.filter fun t => now - t < 90, 1⟩) ∧
    ((∀ k, backend k = BackendOutcome.connErr) →
      complete backend now [] =
        ⟨CompleteResult.raised BackendOutcome.connErr,
         [now, now + 2, now + 6], 3⟩) ∧
    (∀ n, 1 ≤ waitAfter n ∧ waitAfter n ≤ 10) := by
  refine ⟨?_, ?_, ?_, ?_⟩
  · intro hb hc
    simp only [complete, completeLoop, hc, hb]
    try simp [checkCircuit]
  · intro hb hc
    simp only [complete, completeLoop, hc, hb]
    try simp [checkCircuit]
  · intro hb
    have hc1 : checkCircuit now [] = (false, []) := by simp [checkCircuit]
    have hc2 : checkCircuit (now + 2) [now] = (false, [now]) := by
      unfold checkCircuit
      have e1 : now + 2 - now < 90 := by omega
      simp [e1]
    have hc3 : checkCircuit (now + 2 + 4) [now, now + 2] =
        (false, [now, now + 2]) := by
      unfold checkCircuit
      have e1 : now + 2 + 4 - now < 90 := by omega
      have e2 : now + 2 + 4 - (now + 2) < 90 := by omega
      simp [e1, e2]
    have l3 : completeLoop backend 0 3 (now + 2 + 4) [now, now + 2] 2 =
        ⟨CompleteResult.raised BackendOutcome.connErr,
         [now, now + 2, now + 2 + 4], 3⟩ := by
      simp [completeLoop, hc3, hb 3]
    have l2 : completeLoop backend 1 2 (now + 2) [now] 1 =
        ⟨CompleteResult.raised BackendOutcome.connErr,
         [now, now + 2, now + 2 + 4], 3⟩ := by
      simp only [completeLoop, hc2, hb 2]
      exact l3
    have l1 : completeLoop backend 2 1 now [] 0 =
        ⟨CompleteResult.raised BackendOutcome.connErr,
         [now, now + 2, now + 2 + 4], 3⟩ := by
      simp only [completeLoop, hc1, hb 1]
      exact l2
    have hfin : now + 2 + 4 = now + 6 := by omega
    calc complete backend now [] =
        ⟨CompleteResult.raised BackendOutcome.connErr,
         [now, now + 2, now + 2 + 4], 3⟩ := l1
      _ = ⟨CompleteResult.raised BackendOutcome.connErr,
         [now, now + 2, now + 6], 3⟩ := by rw [hfin]
  · intro n
    exact ⟨le_max_left 1 _, max_le (by norm_num) (min_le_right _ _)⟩

/-- C7 witness: a non-rate-limit API status error is recorded but not
retried (one attempt), and the first backoff delay is within [1, 10]. -/
theorem c7_witness :
    complete (fun _ => BackendOutcome.statusErr) 5 [] =
      ⟨CompleteResult.raised BackendOutcome.statusErr, [5], 1⟩ ∧
    1 ≤ waitAfter 1 ∧ waitAfter 1 ≤ 10 := by
  have h := c7_retry_and_recording (fun _ => BackendOutcome.statusErr) 5 []
  exact ⟨by simpa using h.1 rfl (by decide), h.2.2.2 1⟩

-- ===== Dispatch-chain lemmas (for C5, C8, C3) =====

/-- A successful idempotent dispatch carries the tool name and token. -/
theorem callWithIdem_fields (reg : ToolCall → Json) (idem name : String)
    (args : Json) (c : ToolCall) (p : Json)
    (h : callWithIdem reg idem name args = Except.ok (c, p)) :
    c.tool = name ∧ c.idem = some idem := by
  simp only [callWithIdem] at h
  repeat' split at h
  all_goals
    first
      | (simp only [Except.ok.injEq, Prod.mk.injEq] at h
         obtain ⟨h1, -⟩ := h
         subst h1
         exact ⟨rfl, rfl⟩)
      | exact Except.noConfusion h

/-- A successful plain dispatch carries the tool name and no token. -/
theorem callPlain_fields (reg : ToolCall → Json) (name : String)
    (args : Json) (c : ToolCall) (p : Json)
    (h : callPlain reg name args = Except.ok (c, p)) :
    c.tool = name ∧ c.idem = none := by
  simp only [callPlain] at h
  repeat' split at h
  all_goals
    first
      | (simp only [Except.ok.injEq, Prod.mk.injEq] at h
         obtain ⟨h1, -⟩ := h
         subst h1
         exact ⟨rfl, rfl⟩)
      | exact Except.noConfusion h

/-- A successful dispatch makes at most one call; any call made names
a catalog tool and carries the per-command token exactly when the tool
is one of the six idempotent mutating tools. -/
theorem dispatchStep_spec (reg : ToolCall → Json) (idem : String)
    (toolv : Option Json) (args : Json) (cs : List ToolCall) (res : Json)
    (h : dispatchStep reg idem toolv args = Except.ok (cs, res)) :
    cs = [] ∨ ∃ c, cs = [c] ∧ TOOL_CATALOG.contains c.tool = true ∧
      c.idem = (if IDEM_TOOLS.contains c.tool then some idem else none) := by
  cases hos : optStr toolv with
  | none =>
    simp only [dispatchStep, hos, Except.ok.injEq, Prod.mk.injEq] at h
    exact Or.inl h.1.symm
  | some t =>
    simp only [dispatchStep, hos] at h
    by_cases e1 : t = "create_doctype"
    · rw [if_pos e1] at h
      split at h
      · exact Except.noConfusion h
      · rename_i rp hr
        simp only [Except.ok.injEq, Prod.mk.injEq] at h
        obtain ⟨hcs, -⟩ := h
        obtain ⟨ht, hi⟩ := callWithIdem_fields _ _ _ _ _ _ hr
        refine Or.inr ⟨rp.1, hcs.symm, ?_, ?_⟩
        · rw [ht]; rfl
        · rw [ht, hi]; rfl
    · rw [if_neg e1] at h
      by_cases e2 : t = "update_doctype"
      · rw [if_pos e2] at h
        split at h
        · exact Except.noConfusion h
        · rename_i rp hr
          simp only [Except.ok.injEq, Prod.mk.injEq] at h
          obtain ⟨hcs, -⟩ := h
          obtain ⟨ht, hi⟩ := callWithIdem_fields _ _ _ _ _ _ hr
          refine Or.inr ⟨rp.1, hcs.symm, ?_, ?_⟩
          · rw [ht]; rfl
          · rw [ht, hi]; rfl
      · rw [if_neg e2] at h
        by_cases e3 : t = "create_workflow"
        · rw [if_pos e3] at h
          split at h
          · exact Except.noConfusion h
          · rename_i rp hr
            simp only [Except.ok.injEq, Prod.mk.injEq] at h
            obtain ⟨hcs, -⟩ := h
            obtain ⟨ht, hi⟩ := callWithIdem_fields _ _ _ _ _ _ hr
            refine Or.inr ⟨rp.1, hcs.symm, ?_, ?_⟩
            · rw [ht]; rfl
            · rw [ht, hi]; rfl
        · rw [if_neg e3] at h
          by_cases e4 : t = "create_query_report"
          · rw [if_pos e4] at h
            split at h
            · exact Except.noConfusion h
            · rename_i rp hr
              simp only [Except.ok.injEq, Prod.mk.injEq] at h
              obtain ⟨hcs, -⟩ := h
              obtain ⟨ht, hi⟩ := callWithIdem_fields _ _ _ _ _ _ hr
              refine Or.inr ⟨rp.1, hcs.symm, ?_, ?_⟩
              · rw [ht]; rfl
              · rw [ht, hi]; rfl
          · rw [if_neg e4] at h
            by_cases e5 : t = "create_script_report"
            · rw [if_pos e5] at h
              split at h
              · exact Except.noConfusion h
              · rename_i rp hr
                simp only [Except.ok.injEq, Prod.mk.injEq] at h
                obtain ⟨hcs, -⟩ := h
                obtain ⟨ht, hi⟩ := callWithIdem_fields _ _ _ _ _ _ hr
                refine Or.inr ⟨rp.1, hcs.symm, ?_, ?_⟩
                · rw [ht]; rfl
                · rw [ht, hi]; rfl
            · rw [if_neg e5] at h
              by_cases e6 : t = "run_report"
              · rw [if_pos e6] at h
                split at h
                · exact Except.noConfusion h
                · rename_i rp hr
                  simp only [Except.ok.injEq, Prod.mk.injEq] at h
                  obtain ⟨hcs, -⟩ := h
                  obtain ⟨ht, hi⟩ := callPlain_fields _ _ _ _ _ hr
                  refine Or.inr ⟨rp.1, hcs.symm, ?_, ?_⟩
                  · rw [ht]; rfl
                  · rw [ht, hi]; rfl
              · rw [if_neg e6] at h
                by_cases e7 : t = "run_sql"
                · rw [if_pos e7] at h
                  split at h
                  · exact Except.noConfusion h
                  · rename_i rp hr
                    simp only [Except.ok.injEq, Prod.mk.injEq] at h
                    obtain ⟨hcs, -⟩ := h
                    obtain ⟨ht, hi⟩ := callPlain_fields _ _ _ _ _ hr
                    refine Or.inr ⟨rp.1, hcs.symm, ?_, ?_⟩
                    · rw [ht]; rfl
                    · rw [ht, hi]; rfl
                · rw [if_neg e7] at h
                  by_cases e8 : t = "get_sales_stats"
                  · rw [if_pos e8] at h
                    split at h
                    · exact Except.noConfusion h
                    · rename_i rp hr
                      simp only [Except.ok.injEq, Prod.mk.injEq] at h
                      obtain ⟨hcs, -⟩ := h
                      obtain ⟨ht, hi⟩ := callPlain_fields _ _ _ _ _ hr
                      refine Or.inr ⟨rp.1, hcs.symm, ?_, ?_⟩
                      · rw [ht]; rfl
                      · rw [ht, hi]; rfl
                  · rw [if_neg e8] at h
                    by_cases e9 : t = "get_purchase_stats"
                    · rw [if_pos e9] at h
                      split at h
                      · exact Except.noConfusion h
                      · rename_i rp hr
                        simp only [Except.ok.injEq, Prod.mk.injEq] at h
                        obtain ⟨hcs, -⟩ := h
                        obtain ⟨ht, hi⟩ := callPlain_fields _ _ _ _ _ hr
                        refine Or.inr ⟨rp.1, hcs.symm, ?_, ?_⟩
                        · rw [ht]; rfl
                        · rw [ht, hi]; rfl
                    · rw [if_neg e9] at h
                      by_cases e10 : t = "get_inventory_snapshot"
                      · rw [if_pos e10] at h
                        split at h
                        · exact Except.noConfusion h
                        · rename_i rp hr
                          simp only [Except.ok.injEq, Prod.mk.injEq] at h
                          obtain ⟨hcs, -⟩ := h
                          obtain ⟨ht, hi⟩ := callPlain_fields _ _ _ _ _ hr
                          refine Or.inr ⟨rp.1, hcs.symm, ?_, ?_⟩
                          · rw [ht]; rfl
                          · rw [ht, hi]; rfl
                      · rw [if_neg e10] at h
                        by_cases e11 : t = "create_task"
                        · rw [if_pos e11] at h
                          split at h
                          · exact Except.noConfusion h
                          · rename_i rp hr
                            simp only [Except.ok.injEq, Prod.mk.injEq] at h
                            obtain ⟨hcs, -⟩ := h
                            obtain ⟨ht, hi⟩ := callWithIdem_fields _ _ _ _ _ _ hr
                            refine Or.inr ⟨rp.1, hcs.symm, ?_, ?_⟩
                            · rw [ht]; rfl
                            · rw [ht, hi]; rfl
                        · rw [if_neg e11] at h
                          by_cases e12 : t = "enqueue_background_job"
                          · rw [if_pos e12] at h
                            split at h
                            · exact Except.noConfusion h
                            · rename_i rp hr
                              simp only [Except.ok.injEq, Prod.mk.injEq] at h
                              obtain ⟨hcs, -⟩ := h
                              obtain ⟨ht, hi⟩ := callPlain_fields _ _ _ _ _ hr
                              refine Or.inr ⟨rp.1, hcs.symm, ?_, ?_⟩
                              · rw [ht]; rfl
                              · rw [ht, hi]; rfl
                          · rw [if_neg e12] at h
                            simp only [Except.ok.injEq, Prod.mk.injEq] at h
                            exact Or.inl h.1.symm
/-- A slice `[:8]` has at most 8 elements. -/
theorem pySlice8_len (v : Json) (out : List Json)
    (h : pySlice8 v = Except.ok out) : out.length ≤ 8 := by
  cases v with
  | arr xs =>
    simp only [pySlice8, Except.ok.injEq] at h
    subst h
    simp only [List.length_take]
    exact Nat.min_le_left _ _
  | str s =>
    simp only [pySlice8, Except.ok.injEq] at h
    subst h
    simp only [List.length_map, List.length_take]
    exact Nat.min_le_left _ _
  | null => exact Except.noConfusion h
  | bool b => exact Except.noConfusion h
  | num n => exact Except.noConfusion h
  | obj kvs => exact Except.noConfusion h

/-- The step loop makes at most one registry call per step. -/
theorem runSteps_calls_le (reg : ToolCall → Json) (idem : String) (dry : Bool) :
    ∀ (ss : List Json) (idx : Nat),
      (runSteps reg idem dry idx ss).2.1.length ≤ ss.length := by
  intro ss
  induction ss with
  | nil => intro idx; simp [runSteps]
  | cons s rest ih =>
    intro idx
    simp only [runSteps]
    split
    · simp
    · split
      · simp
      · split
        · simpa using Nat.le_succ_of_le (ih (idx + 1))
        · split
          · simp
          · rename_i cs0 res0 hd
            rcases dispatchStep_spec _ _ _ _ _ _ hd with hnil | ⟨c, hc, -, -⟩
            · rw [hnil]
              simpa using Nat.le_succ_of_le (ih (idx + 1))
            · rw [hc]
              have := ih (idx + 1)
              simp only [List.cons_append, List.nil_append, List.length_cons]
              omega

/-- Every call recorded by the step loop names a catalog tool and
carries the per-command token exactly for the idempotent tools. -/
theorem runSteps_calls_spec (reg : ToolCall → Json) (idem : String) (dry : Bool) :
    ∀ (ss : List Json) (idx : Nat) (c : ToolCall),
      c ∈ (runSteps reg idem dry idx ss).2.1 →
      TOOL_CATALOG.contains c.tool = true ∧
      c.idem = (if IDEM_TOOLS.contains c.tool then some idem else none) := by
  intro ss
  induction ss with
  | nil => intro idx c hc; simp [runSteps] at hc
  | cons s rest ih =>
    intro idx c hc
    simp only [runSteps] at hc
    split at hc
    · simp at hc
    · split at hc
      · simp at hc
      · split at hc
        · exact ih (idx + 1) c (by simpa using hc)
        · split at hc
          · simp at hc
          · rename_i cs0 res0 hd
            rcases List.mem_append.mp (by simpa using hc) with h | h
            · rcases dispatchStep_spec _ _ _ _ _ _ hd with hnil | ⟨c0, hc0, hcat, hid⟩
              · rw [hnil] at h
                simp at h
              · rw [hc0] at h
                simp only [List.mem_singleton] at h
                subst h
                exact ⟨hcat, hid⟩
            · exact ih (idx + 1) c h

/-- `execute` dispatches at most the first 8 steps of a plan. -/
theorem execute_calls_le8 (today : Date) (corrId idemTok : String)
    (reg : ToolCall → Json) (o : Except LLMErr (Option Json))
    (command user : String) (dry : Bool) (tok : Option String) :
    (execute today corrId idemTok reg o command user dry tok).calls.length ≤ 8 := by
  simp only [execute]
  repeat' split
  all_goals
    first
      | exact le_trans (runSteps_calls_le reg idemTok dry _ _)
          (pySlice8_len _ _ (by assumption))
      | simp

/-- Every call `execute` makes carries the per-command token exactly
for the idempotent mutating tools. -/
theorem execute_calls_spec (today : Date) (corrId idemTok : String)
    (reg : ToolCall → Json) (o : Except LLMErr (Option Json))
    (command user : String) (dry : Bool) (tok : Option String) :
    ∀ c ∈ (execute today corrId idemTok reg o command user dry tok).calls,
      TOOL_CATALOG.contains c.tool = true ∧
      c.idem = (if IDEM_TOOLS.contains c.tool then some idemTok else none) := by
  intro c hc
  simp only [execute] at hc
  repeat' split at hc
  all_goals
    first
      | exact runSteps_calls_spec reg idemTok dry _ _ c hc
      | simp at hc

-- ===== C5 =====

/-- C5 counterexample: a parsed plan with 9 steps of the unrecognized
tool "banana" survives normalization with all 9 steps and the bogus
tool name intact — so "at most 8 steps and every surviving step has a
recognized tool name" fails as stated. -/
theorem c5_counterexample :
    (classify_and_plan ⟨2024, 1, 15⟩ "summarize the ledger"
      (Except.ok (some (Json.obj [("steps",
        Json.arr (List.replicate 9 (Json.obj [("tool", Json.str "banana")])))])))).1 =
      Except.ok (Json.obj [("steps",
        Json.arr (List.replicate 9 (Json.obj
          [("tool", Json.str "banana"), ("args", Json.obj [])])))]) ∧
    (List.replicate 9 (Json.obj
      [("tool", Json.str "banana"), ("args", Json.obj [])])).length = 9 ∧
    ¬ (9 : Nat) ≤ 8 ∧
    TOOL_CATALOG.contains "banana" = false :=
  ⟨rfl, by decide, by decide, by decide⟩

/-- C5 (amended): after normalization every surviving step is a dict
with a truthy `tool` field (steps lacking one are dropped), and the
executor truncates to the first 8 steps at dispatch time (making at
most 8 calls); the normalized plan itself may exceed 8 steps, and
tool names are not validated against the catalog. -/
theorem c5_steps_good_and_capped :
    (∀ (today : Date) (command : String) (o : Except LLMErr (Option Json))
       (plan : Json) (b : Bool),
       classify_and_plan today command o = (Except.ok plan, b) →
       ∃ ss, plan.get "steps" = some (Json.arr ss) ∧ ∀ s ∈ ss, goodStep s = true) ∧
    (∀ (today : Date) (corrId idemTok : String) (reg : ToolCall → Json)
       (o : Except LLMErr (Option Json)) (command user : String)
       (dry : Bool) (tok : Option String),
       (execute today corrId idemTok reg o command user dry tok).calls.length ≤ 8) :=
  ⟨classify_ok_good, execute_calls_le8⟩

/-- C5 witness: the fallback plan's steps are all good, and a concrete
execution makes at most 8 calls. -/
theorem c5_witness :
    (∃ ss, (fallbackPlan ⟨2024, 1, 15⟩).get "steps" = some (Json.arr ss) ∧
      ∀ s ∈ ss, goodStep s = true) ∧
    (execute ⟨2024, 1, 15⟩ "CORR" "IDEM" (fun _ => Json.null) (Except.ok none)
      "summarize the ledger" "u" true none).calls.length ≤ 8 :=
  ⟨c5_steps_good_and_capped.1 ⟨2024, 1, 15⟩ "summarize the ledger"
    (Except.ok none) _ true rfl,
   c5_steps_good_and_capped.2 ⟨2024, 1, 15⟩ "CORR" "IDEM" (fun _ => Json.null)
    (Except.ok none) "summarize the ledger" "u" true none⟩

-- ===== C8 =====

/-- C8 counterexample: a background-job step is dispatched without the
per-command idempotency token ("IDEM" is never attached), although the
spec classes background-job enqueue among the mutating tools that must
receive it. -/
theorem c8_counterexample :
    (execute ⟨2024, 1, 15⟩ "CORR" "IDEM" (fun _ => Json.null)
      (Except.ok (some (Json.obj [("steps", Json.arr [Json.obj
        [("tool", Json.str "enqueue_background_job"),
         ("args", Json.obj [("job", Json.str "x")])]])])))
      "run the nightly job" "u" false none).calls =
      [⟨"enqueue_background_job", [("job", Json.str "x")], none⟩] ∧
    MUTATING_TOOLS.contains "enqueue_background_job" = true ∧
    (⟨"enqueue_background_job", [("job", Json.str "x")], none⟩ : ToolCall).idem ≠
      some "IDEM" :=
  ⟨rfl, by decide, by simp⟩

/-- C8 (amended): `execute` reuses its single per-command idempotency
token across every step it dispatches to the six idempotent mutating
tools (document/doctype creation and update, workflow creation,
query/script report creation, task creation); read-only tools and
`enqueue_background_job` are invoked without the token.  Concretely:
every recorded call names a catalog tool, and carries `some idemTok`
exactly when its tool is in `IDEM_TOOLS`. -/
theorem c8_idem_token_per_command (today : Date) (corrId idemTok : String)
    (reg : ToolCall → Json) (o : Except LLMErr (Option Json))
    (command user : String) (dry : Bool) (tok : Option String) :
    ∀ c ∈ (execute today corrId idemTok reg o command user dry tok).calls,
      TOOL_CATALOG.contains c.tool = true ∧
      c.idem = (if IDEM_TOOLS.contains c.tool then some idemTok else none) :=
  execute_calls_spec today corrId idemTok reg o command user dry tok

/-- C8 witness: a dispatched `create_task` call carries the
per-command token. -/
theorem c8_witness :
    TOOL_CATALOG.contains
      (⟨"create_task", [("subject", Json.str "s")], some "IDEM"⟩ : ToolCall).tool = true ∧
    (⟨"create_task", [("subject", Json.str "s")], some "IDEM"⟩ : ToolCall).idem =
      (if IDEM_TOOLS.contains
          (⟨"create_task", [("subject", Json.str "s")], some "IDEM"⟩ : ToolCall).tool
        then some "IDEM" else none) :=
  c8_idem_token_per_command ⟨2024, 1, 15⟩ "CORR" "IDEM" (fun _ => Json.null)
    (Except.ok (some (Json.obj [("steps", Json.arr [Json.obj
      [("tool", Json.str "create_task"),
       ("args", Json.obj [("subject", Json.str "s")])]])])))
    "file the task" "u" false none
    ⟨"create_task", [("subject", Json.str "s")], some "IDEM"⟩
    (List.mem_singleton.mpr rfl)

/-- `optStr` succeeds exactly on string values. -/
theorem optStr_some_eq (tv : Option Json) (t : String) (h : optStr tv = some t) :
    tv = some (Json.str t) := by
  cases tv with
  | none => exact Option.noConfusion h
  | some v =>
    cases v <;> first
      | exact Option.noConfusion h
      | (simp only [optStr, Option.some.injEq] at h; rw [h])

/-- For a well-formed dry-run step with a read-only tool, the effective
args value is a mapping. -/
theorem dryWF_args_obj (kvs : List (String × Json))
    (hs : dryWFStep (Json.obj kvs) = true)
    (hro : notInReadOnly (lookupKV kvs "tool") = Except.ok false) :
    ∃ aks, (match lookupKV kvs "args" with
      | some v => if v.truthy then v else Json.obj []
      | none => Json.obj []) = Json.obj aks := by
  simp only [dryWFStep, hro] at hs
  cases hargs : lookupKV kvs "args" with
  | none => exact ⟨[], rfl⟩
  | some v =>
    rw [hargs] at hs
    by_cases ht : v.truthy = true
    · simp only [ht, if_true]
      cases v <;> simp_all
    · exact ⟨[], by simp [ht]⟩

/-- C3 (corrected): over well-formed steps — dict steps whose tool
value is hashable (not a list or dict) and whose args, when the tool
is read-only, are a mapping, absent or falsy — `execute`'s dry-run
step loop (`runSteps` with `dry = true`, agent.py lines 108-144)
realizes exactly the claimed contract `specDryAll`: each step whose
tool is in `READ_ONLY_TOOLS` is dispatched (one kwargs call, no
idempotency token) and its payload recorded as the outcome, and every
other step is recorded as the skipped outcome (step, tool, dry_run
true, args) with no tool invocation; the loop does not raise.  The
well-formedness proviso is the correction: a read-only step carrying
truthy non-mapping args makes the `**args` call-site unpacking raise
before the tool is invoked, and a step whose tool value is a list or
dict makes the set-membership test `tool not in READ_ONLY_TOOLS`
itself raise TypeError (unhashable), so the run aborts (see the
counterexample) — neither case matches the original claim's
unconditional dispatch-or-skip dichotomy. -/
theorem c3_dry_run_step_semantics (reg : ToolCall → Json) (idem : String) :
    ∀ (ss : List Json) (idx : Nat), (∀ s ∈ ss, dryWFStep s = true) →
      runSteps reg idem true idx ss =
        ((specDryAll reg idx ss).1, (specDryAll reg idx ss).2, false) := by
  intro ss
  induction ss with
  | nil => intro idx _; rfl
  | cons s rest ih =>
    intro idx hwf
    have hs := hwf s (by simp)
    have hrest : ∀ x ∈ rest, dryWFStep x = true := fun x hx => hwf x (by simp [hx])
    cases s with
    | obj kvs =>
      simp only [runSteps, stepFields, if_true]
      cases hnro : notInReadOnly (lookupKV kvs "tool") with
      | error e => exact absurd hs (by simp [dryWFStep, hnro])
      | ok skip =>
        cases skip with
        | true =>
          rw [ih (idx + 1) hrest]
          cases htv : lookupKV kvs "tool" with
          | none => simp [specDryAll, specDryPair, Json.get, optStr, htv]
          | some v =>
            cases v with
            | str t =>
              have hnm : t ∉ READ_ONLY_TOOLS := by
                have h2 := hnro
                rw [htv] at h2
                simp only [notInReadOnly, Except.ok.injEq] at h2
                simpa using h2
              simp [specDryAll, specDryPair, Json.get, optStr, htv, hnm]
            | arr xs =>
              rw [htv] at hnro
              exact absurd hnro (by simp [notInReadOnly])
            | obj o2 =>
              rw [htv] at hnro
              exact absurd hnro (by simp [notInReadOnly])
            | null => simp [specDryAll, specDryPair, Json.get, optStr, htv]
            | bool b2 => simp [specDryAll, specDryPair, Json.get, optStr, htv]
            | num n2 => simp [specDryAll, specDryPair, Json.get, optStr, htv]
        | false =>
          obtain ⟨aks, haks⟩ := dryWF_args_obj kvs hs hnro
          cases htv : lookupKV kvs "tool" with
          | none =>
            rw [htv] at hnro
            exact absurd hnro (by simp [notInReadOnly])
          | some v =>
            cases v with
            | str t =>
              have hmem : t ∈ READ_ONLY_TOOLS := by
                have h2 := hnro
                rw [htv] at h2
                simp only [notInReadOnly, Except.ok.injEq] at h2
                simpa using h2
              simp only [READ_ONLY_TOOLS, List.mem_cons, List.not_mem_nil, or_false] at hmem
              rw [haks]
              rcases hmem with rfl | rfl | rfl | rfl | rfl <;>
                simp [dispatchStep, optStr, callPlain, specDryAll, specDryPair,
                  Json.get, htv, haks, ih (idx + 1) hrest, READ_ONLY_TOOLS]
            | null =>
              rw [htv] at hnro
              exact absurd hnro (by simp [notInReadOnly])
            | bool b2 =>
              rw [htv] at hnro
              exact absurd hnro (by simp [notInReadOnly])
            | num n2 =>
              rw [htv] at hnro
              exact absurd hnro (by simp [notInReadOnly])
            | arr xs =>
              rw [htv] at hnro
              exact absurd hnro (by simp [notInReadOnly])
            | obj o2 =>
              rw [htv] at hnro
              exact absurd hnro (by simp [notInReadOnly])
    | null => exact absurd hs (by simp [dryWFStep])
    | bool b => exact absurd hs (by simp [dryWFStep])
    | num n => exact absurd hs (by simp [dryWFStep])
    | str v => exact absurd hs (by simp [dryWFStep])
    | arr xs => exact absurd hs (by simp [dryWFStep])

/-- C3 counterexample: two dry-run executions the claim's dichotomy
does not cover.  First, a single step naming the read-only tool
`run_sql` with truthy non-mapping args (`[1]`) is not dispatched with
its payload recorded: the `**args` unpacking raises and the run aborts
with no outcome and no call.  Second, a step whose tool value is the
list `["x"]` (kept by the planner filter, which only tests truthiness)
is not recorded as a skipped outcome: the set-membership test raises
TypeError on the unhashable value and the run aborts. -/
theorem c3_counterexample :
    notInReadOnly (some (Json.str "run_sql")) = Except.ok false ∧
    execute ⟨2024, 1, 15⟩ "CORR" "IDEM" (fun _ => Json.null)
      (Except.ok (some (Json.obj [("steps", Json.arr [Json.obj
        [("tool", Json.str "run_sql"), ("args", Json.arr [Json.num 1])]])])))
      "summarize the ledger" "u" true none
      = ⟨Except.error ExecErr.runtime, [], true⟩ ∧
    execute ⟨2024, 1, 15⟩ "CORR" "IDEM" (fun _ => Json.null)
      (Except.ok (some (Json.obj [("steps", Json.arr [Json.obj
        [("tool", Json.arr [Json.str "x"])]])])))
      "summarize the ledger" "u" true none
      = ⟨Except.error ExecErr.runtime, [], true⟩ :=
  ⟨rfl, rfl, rfl⟩

/-- C3 witness: a two-step dry run — read-only `get_sales_stats`
followed by mutating `create_task` — dispatches exactly the first and
skips the second. -/
theorem c3_witness :
    runSteps (fun _ => Json.obj [("ok", Json.bool true)]) "IDEM" true 1
      [Json.obj [("tool", Json.str "get_sales_stats"),
         ("args", Json.obj [("by", Json.str "month")])],
       Json.obj [("tool", Json.str "create_task"),
         ("args", Json.obj [("subject", Json.str "s")])]] =
      (((specDryAll (fun _ => Json.obj [("ok", Json.bool true)]) 1
          [Json.obj [("tool", Json.str "get_sales_stats"),
             ("args", Json.obj [("by", Json.str "month")])],
           Json.obj [("tool", Json.str "create_task"),
             ("args", Json.obj [("subject", Json.str "s")])]]).1,
        (specDryAll (fun _ => Json.obj [("ok", Json.bool true)]) 1
          [Json.obj [("tool", Json.str "get_sales_stats"),
             ("args", Json.obj [("by", Json.str "month")])],
           Json.obj [("tool", Json.str "create_task"),
             ("args", Json.obj [("subject", Json.str "s")])]]).2, false)) :=
  c3_dry_run_step_semantics (fun _ => Json.obj [("ok", Json.bool true)]) "IDEM"
    [Json.obj [("tool", Json.str "get_sales_stats"),
       ("args", Json.obj [("by", Json.str "month")])],
     Json.obj [("tool", Json.str "create_task"),
       ("args", Json.obj [("subject", Json.str "s")])]] 1
    (by
      intro s hs
      simp only [List.mem_cons, List.not_mem_nil, or_false] at hs
      rcases hs with rfl | rfl <;> rfl)

/-- The stats-arm tail passes the accumulated call trace through. -/
theorem statsFinish_calls (isSales : Bool) (dimv topv : Json)
    (dkvs : List (String × Json)) (rows : Json) (calls : List ToolCall) :
    (statsFinish isSales dimv topv dkvs rows calls).2 = calls := by
  simp only [statsFinish]
  split <;> rfl

/-- The RAG arm makes exactly one `answer_question` call. -/
theorem ragBranch_calls (env : RouterEnv) (qv : Json) (title : String) :
    (ragBranch env qv title).2 =
      [⟨"answer_question", [("question", qv), ("top_k", Json.num 6)], none⟩] := by
  simp only [ragBranch]
  split <;> rfl

/-- The inventory arm only ever calls `get_inventory_snapshot`. -/
theorem inventoryBranch_tools (env : RouterEnv) (argsv : Json) :
    ∀ c ∈ (inventoryBranch env argsv).2, c.tool = "get_inventory_snapshot" := by
  intro c hc
  simp only [inventoryBranch] at hc
  repeat' split at hc
  all_goals simp_all

/-- The stats arm only ever calls its domain's aggregation tool. -/
theorem statsBranch_tools (env : RouterEnv) (isSales : Bool) (argsv : Json) :
    ∀ c ∈ (statsBranch env isSales argsv).2,
      c.tool = (if isSales then "get_sales_stats" else "get_purchase_stats") := by
  intro c hc
  simp only [statsBranch] at hc
  repeat' split at hc
  all_goals simp_all [statsFinish_calls]
  all_goals rcases hc with rfl | rfl <;> rfl

/-- The report arm only ever calls `run_report`. -/
theorem runReportBranch_tools (env : RouterEnv) (rkvs : List (String × Json)) :
    ∀ c ∈ (runReportBranch env rkvs).2, c.tool = "run_report" := by
  intro c hc
  simp only [runReportBranch] at hc
  repeat' split at hc
  all_goals simp_all

/-- Every call `execute_routed` makes, on any routing decision, targets
one of the five read-only collaborators. -/
theorem execute_routed_tools (env : RouterEnv) (r : Json) :
    ∀ c ∈ (execute_routed env r).2,
      c.tool ∈ ["answer_question", "get_inventory_snapshot",
        "get_sales_stats", "get_purchase_stats", "run_report"] := by
  intro c hc
  simp only [execute_routed] at hc
  split at hc
  · rename_i rkvs
    split_ifs at hc
    · split at hc
      · rw [ragBranch_calls] at hc
        simp only [List.mem_singleton] at hc
        subst hc
        simp
      · exact absurd hc (List.not_mem_nil c)
    · split at hc
      · rename_i av _
        have := inventoryBranch_tools env av c hc
        simp [this]
      · exact absurd hc (List.not_mem_nil c)
    · split at hc
      · rename_i av _
        have := statsBranch_tools env true av c hc
        simp only [if_true] at this
        simp [this]
      · exact absurd hc (List.not_mem_nil c)
    · split at hc
      · rename_i av _
        have := statsBranch_tools env false av c hc
        simp only [if_false] at this
        simp [this]
      · exact absurd hc (List.not_mem_nil c)
    · have := runReportBranch_tools env rkvs c hc
      simp [this]
    · rw [ragBranch_calls] at hc
      simp only [List.mem_singleton] at hc
      subst hc
      simp
  · exact absurd hc (List.not_mem_nil c)

/-- `route_and_execute` makes exactly the calls of `execute_routed` on
the routing decision (the meta annotation adds none). -/
theorem route_and_execute_calls (env : RouterEnv) (today : Date) (query : String) :
    (route_and_execute env today query).2 =
      (execute_routed env (route today query)).2 := by
  simp only [route_and_execute]
  repeat' split
  all_goals rfl

/-- Every routing decision carries one of the five read-only actions. -/
theorem route_action_cases (today : Date) (query : String) :
    ∃ a, (route today query).get "action" = some (Json.str a) ∧
      (a = "rag" ∨ a = "run_report" ∨ a = "inventory_snapshot" ∨
       a = "purchase_stats" ∨ a = "sales_stats") := by
  simp only [route]
  split_ifs
  all_goals exact ⟨_, rfl, by simp⟩

/-- C10 (confirmed): for every query, `route` returns a decision whose
action is one of the read-only operations rag, run_report,
inventory_snapshot, purchase_stats, sales_stats; consequently every
tool call made by `route_and_execute` targets one of the five read-only
collaborators (answer_question, get_inventory_snapshot,
get_sales_stats, get_purchase_stats, run_report) and never a mutating
tool; and the router fast path of `smart_execute` (taken when the
routed payload carries truthy rows or a raw answer, bypassing the
confirmation and dry-run machinery) makes exactly the router's calls
and never consults the planner. -/
theorem c10_router_never_mutates (reg : ToolCall → Json) (rag : Json → Json)
    (today : Date) (query : String) :
    (∃ a, (route today query).get "action" = some (Json.str a) ∧
       (a = "rag" ∨ a = "run_report" ∨ a = "inventory_snapshot" ∨
        a = "purchase_stats" ∨ a = "sales_stats")) ∧
    (∀ c ∈ (route_and_execute ⟨reg, rag⟩ today query).2,
       c.tool ∈ ["answer_question", "get_inventory_snapshot",
         "get_sales_stats", "get_purchase_stats", "run_report"] ∧
       MUTATING_TOOLS.contains c.tool = false) ∧
    (∀ (corrId idemTok user : String) (llmOutcome : Except LLMErr (Option Json))
       (dry : Bool) (tok : Option String) (routed : Json),
       (route_and_execute ⟨reg, rag⟩ today query).1 = Except.ok routed →
       routedFast routed = true →
       (smart_execute today corrId idemTok reg rag llmOutcome query user dry tok).calls =
         (route_and_execute ⟨reg, rag⟩ today query).2 ∧
       (smart_execute today corrId idemTok reg rag llmOutcome query user dry tok).llmCalled
         = false) := by
  refine ⟨route_action_cases today query, ?_, ?_⟩
  · intro c hc
    rw [route_and_execute_calls] at hc
    have h := execute_routed_tools ⟨reg, rag⟩ (route today query) c hc
    refine ⟨h, ?_⟩
    simp only [List.mem_cons, List.not_mem_nil, or_false] at h
    rcases h with h | h | h | h | h
    all_goals rw [h]
    all_goals rfl
  · intro corrId idemTok user llmOutcome dry tok routed h1 h2
    simp only [smart_execute]
    rw [h1]
    simp only [h2, if_true]
    constructor <;> first | rfl | trivial

/-- C10 witness: a documentation question takes the router fast path —
the RAG oracle answers, smart_execute returns with exactly the router's
call trace and without invoking the planner. -/
theorem c10_witness :
    (smart_execute ⟨2024, 1, 15⟩ "CORR" "IDEM" (fun _ => Json.null)
        (fun _ => Json.obj [("answer", Json.str "A")])
        (Except.error LLMErr.circuitOpen) "how do I add a customer" "u" true none).calls =
      (route_and_execute ⟨fun _ => Json.null, fun _ => Json.obj [("answer", Json.str "A")]⟩
        ⟨2024, 1, 15⟩ "how do I add a customer").2 ∧
    (smart_execute ⟨2024, 1, 15⟩ "CORR" "IDEM" (fun _ => Json.null)
        (fun _ => Json.obj [("answer", Json.str "A")])
        (Except.error LLMErr.circuitOpen) "how do I add a customer" "u" true none).llmCalled
      = false :=
  (c10_router_never_mutates (fun _ => Json.null)
    (fun _ => Json.obj [("answer", Json.str "A")])
    ⟨2024, 1, 15⟩ "how do I add a customer").2.2 "CORR" "IDEM" "u"
    (Except.error LLMErr.circuitOpen) true none _ rfl rfl

end AIAgent
